import Mathlib

/-!
# Temporal job pipeline: queue consumers

A shallow embedding of the queue consumers of the repository (`queue/ipfs.go`,
`queue/ipfs_cluster.go`, `queue/ipns.go`, `queue/queue.go`).

A consumer is a loop `for d := range msgs { ... }`.  The body run for one
delivery is embedded as a function from the outcomes of the collaborator calls
(an `Env`) to the list of collaborator calls the body makes, in program order
(`List Event`).  Calls to the logger are not recorded.  A collaborator call
either succeeds or returns a Go `error`.
-/

namespace Temporal

/-! ## Values -/

/-- Go `error` values as the consumers distinguish them: the sentinel
`gorm.ErrRecordNotFound`, which the code compares by identity, and any other
error, carrying its message. -/
inductive GoError where
  | ErrRecordNotFound
  | other (msg : String)
deriving DecidableEq, Repr

/-- The method `err.Error()`. -/
def GoError.Error : GoError → String
  | .ErrRecordNotFound => "record not found"
  | .other msg => msg

/-- Billed credit amounts.  The consumers only copy the amount from the job
into the refund call; the Go zero value is `0`. -/
abbrev Credits := Int

/-- A `*rtfs.IpfsManager`: `none` is the nil pointer, `some url` a manager
returned by `rtfs.Initialize("", url)`. -/
abbrev IpfsManager := Option String

/-- Key families of `go-libp2p-crypto` used by the key creation consumer. -/
inductive KeyType where
  | RSA
  | Ed25519
deriving DecidableEq, Repr

/-- An `amqp.Delivery`: `Body` is `none` for a nil byte slice. -/
structure Delivery where
  Body : Option String
deriving DecidableEq, Repr

/-! ## Job messages -/

/-- Job of the key creation queue. -/
structure IPFSKeyCreation where
  UserName : String
  Name : String
  /-- The field `Type` of the Go struct. -/
  Type_ : String
  Size : Int
  NetworkName : String
deriving DecidableEq, Repr

/-- Job of the pin queue. -/
structure IPFSPin where
  CID : String
  NetworkName : String
  UserName : String
  HoldTimeInMonths : Int
  CreditCost : Credits
deriving DecidableEq, Repr

/-- Job of the pin removal queue. -/
structure IPFSPinRemoval where
  ContentHash : String
  NetworkName : String
  UserName : String
deriving DecidableEq, Repr

/-- Job of the file add queue; the hold time travels as a string. -/
structure IPFSFile where
  BucketName : String
  ObjectName : String
  UserName : String
  NetworkName : String
  HoldTimeInMonths : String
deriving DecidableEq, Repr

/-- Job of the cluster pin queue. -/
structure IPFSClusterPin where
  CID : String
  NetworkName : String
  UserName : String
  HoldTimeInMonths : Int
  CreditCost : Credits
deriving DecidableEq, Repr

/-- Job of the IPNS entry queue; durations are in nanoseconds. -/
structure IPNSEntry where
  CID : String
  LifeTime : Int
  TTL : Int
  Key : String
  UserName : String
  NetworkName : String
  CreditCost : Credits
deriving DecidableEq, Repr

/-- Job of the mail queue. -/
structure EmailSend where
  Subject : String
  Content : String
  ContentType : String
  UserNames : List String
  Emails : List String
deriving DecidableEq, Repr

/-! ## Collaborator calls -/

/-- One call made by a consumer body, with its arguments. -/
inductive Event where
  | Ack (multiple : Bool)
  | Nack (multiple requeue : Bool)
  | CheckIfUserHasAccessToNetwork (user network : String)
  | GetAPIURLByName (network : String)
  | rtfsInitialize (pubTopic connectionURL : String)
  | Pin (manager : IpfsManager) (cid : String)
  | Unpin (manager : IpfsManager) (hash : String)
  | Add (manager : IpfsManager) (obj : String)
  | PublishEmail (es : EmailSend)
  | PublishClusterPin (msg : IPFSClusterPin)
  | PublishPinWithExchange (msg : IPFSPin) (exchange : String)
  | FindUploadByHashAndNetwork (hash network : String)
  | NewUpload (hash uploadType network user : String) (holdTimeInMonths : Int)
  | UpdateUpload (holdTimeInMonths : Int) (user hash network : String)
  | refundCredits (user callType : String) (cost : Credits)
  | DecodeHashString (cid : String)
  | ClusterPin (encodedCid : String)
  | GetObject (bucket object : String)
  | RemoveObject (bucket object : String)
  | CreateAndSaveKey (name : String) (keyType : KeyType) (bits : Int)
  | IDFromPrivateKey (pk : String)
  | AddIPFSKeyForUser (user keyName id : String)
  | NewPublisher
  | GetPrivateKey (name : String)
  | UnmarshalPrivateKey (bytes : String)
  | PublishWithEOL (ttl : Int) (pk cid : String) (eol : Int)
  | FindByIPNSHash (id : String)
  | UpdateIPNSEntry (id cid network user : String) (lifetime ttl : Int)
  | CreateEntry (id cid key network user : String) (lifetime ttl : Int)
  | SendEmail (subject content contentType user email : String)
  | indexOutOfRange
deriving DecidableEq, Repr

/-- String constants of the `queue` package that the consumers refer to. -/
structure Constants where
  IpfsPrivateNetworkUnauthorizedSubject : String
  IpfsInitializationFailedSubject : String
  IpfsPinFailedSubject : String
  IpfsFileFailedSubject : String
  PinExchange : String
  /-- The value of `fmt.Sprintf(IpfsPinFailedContent, cid, network, err)`. -/
  IpfsPinFailedContent : String → String → String → String
  /-- The value of `fmt.Sprintf(IpfsFileFailedContent, object, network)`. -/
  IpfsFileFailedContent : String → String → String

/-- Outcomes of the collaborator calls during one delivery.  An `Option GoError`
is a returned `error` (`none` is nil); an `Except GoError α` is a returned pair
of a value and an `error`. -/
structure Env where
  consts : Constants
  unmarshalKeyCreation : Option String → Except GoError IPFSKeyCreation
  unmarshalPin : Option String → Except GoError IPFSPin
  unmarshalPinRemoval : Option String → Except GoError IPFSPinRemoval
  unmarshalFile : Option String → Except GoError IPFSFile
  unmarshalClusterPin : Option String → Except GoError IPFSClusterPin
  unmarshalIPNSEntry : Option String → Except GoError IPNSEntry
  unmarshalEmailSend : Option String → Except GoError EmailSend
  CheckIfUserHasAccessToNetwork : String → String → Except GoError Bool
  GetAPIURLByName : String → Except GoError String
  rtfsInitialize : String → String → Option GoError
  Pin : IpfsManager → String → Option GoError
  Unpin : IpfsManager → String → Option GoError
  Add : IpfsManager → String → Except GoError String
  PublishEmail : EmailSend → Option GoError
  PublishClusterPin : IPFSClusterPin → Option GoError
  PublishPinWithExchange : IPFSPin → String → Option GoError
  FindUploadByHashAndNetwork : String → String → Option GoError
  NewUpload : String → String → String → String → Int → Option GoError
  UpdateUpload : Int → String → String → String → Option GoError
  DecodeHashString : String → Except GoError String
  ClusterPin : String → Option GoError
  GetObject : String → String → Except GoError String
  RemoveObject : String → String → Option GoError
  CreateAndSaveKey : String → KeyType → Int → Except GoError String
  IDFromPrivateKey : String → Except GoError String
  AddIPFSKeyForUser : String → String → String → Option GoError
  NewPublisher : Option GoError
  GetPrivateKey : String → Except GoError String
  UnmarshalPrivateKey : String → Except GoError String
  PublishWithEOL : Int → String → String → Int → Option GoError
  FindByIPNSHash : String → Option GoError
  UpdateIPNSEntry : String → String → String → String → Int → Int → Option GoError
  CreateEntry : String → String → String → String → String → Int → Int → Option GoError
  SendEmail : String → String → String → String → String → Option GoError
  /-- The value of `time.Now()`, in nanoseconds since the Unix epoch. -/
  Now : Int

/-! ## `ProccessIPFSPins` (queue/ipfs.go) -/

/-- Lines 306-348: the upload ledger upsert and the final acknowledgement. -/
def ProccessIPFSPins.ledger (env : Env) (pin : IPFSPin) : List Event :=
  Event.FindUploadByHashAndNetwork pin.CID pin.NetworkName ::
  match env.FindUploadByHashAndNetwork pin.CID pin.NetworkName with
  | some (GoError.other _) => [Event.Ack false]
  | some GoError.ErrRecordNotFound =>
    Event.NewUpload pin.CID "pin" pin.NetworkName pin.UserName pin.HoldTimeInMonths ::
    match env.NewUpload pin.CID "pin" pin.NetworkName pin.UserName pin.HoldTimeInMonths with
    | some _ => [Event.Ack false]
    | none => [Event.Ack false]
  | none =>
    Event.UpdateUpload pin.HoldTimeInMonths pin.UserName pin.CID pin.NetworkName ::
    match env.UpdateUpload pin.HoldTimeInMonths pin.UserName pin.CID pin.NetworkName with
    | some _ => [Event.Ack false]
    | none => [Event.Ack false]

/-- Lines 222-305: connect to the store on `apiURL`, pin, hand the hash over to
the cluster pin queue, then the ledger. -/
def ProccessIPFSPins.store (env : Env) (pin : IPFSPin) (apiURL : String) : List Event :=
  Event.rtfsInitialize "" apiURL ::
  match env.rtfsInitialize "" apiURL with
  | some err =>
    [Event.PublishEmail
      { Subject := env.consts.IpfsInitializationFailedSubject
        Content := "Connection to IPFS failed due to the following error " ++ err.Error
        ContentType := ""
        UserNames := [pin.UserName]
        Emails := [] },
     Event.Ack false]
  | none =>
    Event.Pin (some apiURL) pin.CID ::
    match env.Pin (some apiURL) pin.CID with
    | some err =>
      [Event.PublishEmail
        { Subject := env.consts.IpfsPinFailedSubject
          Content := env.consts.IpfsPinFailedContent pin.CID pin.NetworkName err.Error
          ContentType := ""
          UserNames := [pin.UserName]
          Emails := [] },
       Event.Ack false]
    | none =>
      Event.PublishClusterPin
        { CID := pin.CID
          NetworkName := pin.NetworkName
          HoldTimeInMonths := pin.HoldTimeInMonths
          UserName := pin.UserName
          CreditCost := 0 } ::
      ProccessIPFSPins.ledger env pin

/-- The loop body of `ProccessIPFSPins` for one delivery (lines 160-349). -/
def ProccessIPFSPins.body (env : Env) (d : Delivery) : List Event :=
  match env.unmarshalPin d.Body with
  | .error _ => [Event.Ack false]
  | .ok pin =>
    if pin.NetworkName ≠ "public" then
      Event.CheckIfUserHasAccessToNetwork pin.UserName pin.NetworkName ::
      match env.CheckIfUserHasAccessToNetwork pin.UserName pin.NetworkName with
      | .error _ => [Event.Ack false]
      | .ok false =>
        [Event.PublishEmail
          { Subject := env.consts.IpfsPrivateNetworkUnauthorizedSubject
            Content := "Unauthorized access to IPFS private network " ++ pin.NetworkName
            ContentType := ""
            UserNames := [pin.UserName]
            Emails := [] },
         Event.Ack false]
      | .ok true =>
        Event.GetAPIURLByName pin.NetworkName ::
        match env.GetAPIURLByName pin.NetworkName with
        | .error _ => [Event.Ack false]
        | .ok url => ProccessIPFSPins.store env pin url
    else ProccessIPFSPins.store env pin ""

/-- The consumer `ProccessIPFSPins`: the body is run on each delivery in turn;
`envs d` gives the outcomes of the collaborator calls while `d` is handled. -/
def ProccessIPFSPins (envs : Delivery → Env) (msgs : List Delivery) : List (List Event) :=
  msgs.map (fun d => ProccessIPFSPins.body (envs d) d)

/-! ## `ProcessIPFSPinRemovals` (queue/ipfs.go) -/

/-- Lines 436-501: connect to the store on `apiURL` and unpin. -/
def ProcessIPFSPinRemovals.store (env : Env) (rm : IPFSPinRemoval) (apiURL : String) :
    List Event :=
  Event.rtfsInitialize "" apiURL ::
  match env.rtfsInitialize "" apiURL with
  | some err =>
    [Event.PublishEmail
      { Subject := env.consts.IpfsInitializationFailedSubject
        Content := "Failed to connect to IPFS network " ++ rm.NetworkName ++ " for reason "
          ++ err.Error
        ContentType := ""
        UserNames := [rm.UserName]
        Emails := [] },
     Event.Ack false]
  | none =>
    Event.Unpin (some apiURL) rm.ContentHash ::
    match env.Unpin (some apiURL) rm.ContentHash with
    | some err =>
      [Event.PublishEmail
        { Subject := "Pin removal failed"
          Content := "Pin removal failed for ipfs network " ++ rm.NetworkName
            ++ " due to reason " ++ err.Error
          ContentType := ""
          UserNames := [rm.UserName]
          Emails := [] },
       Event.Ack false]
    | none => [Event.Ack false]

/-- The loop body of `ProcessIPFSPinRemovals` for one delivery (lines 372-502). -/
def ProcessIPFSPinRemovals.body (env : Env) (d : Delivery) : List Event :=
  match env.unmarshalPinRemoval d.Body with
  | .error _ => [Event.Ack false]
  | .ok rm =>
    if rm.NetworkName ≠ "public" then
      Event.CheckIfUserHasAccessToNetwork rm.UserName rm.NetworkName ::
      match env.CheckIfUserHasAccessToNetwork rm.UserName rm.NetworkName with
      | .error _ => [Event.Ack false]
      | .ok false =>
        [Event.PublishEmail
          { Subject := env.consts.IpfsPrivateNetworkUnauthorizedSubject
            Content := "Unauthorized access to IPFS private network " ++ rm.NetworkName
            ContentType := ""
            UserNames := [rm.UserName]
            Emails := [] },
         Event.Ack false]
      | .ok true =>
        Event.GetAPIURLByName rm.NetworkName ::
        match env.GetAPIURLByName rm.NetworkName with
        | .error _ => [Event.Ack false]
        | .ok url => ProcessIPFSPinRemovals.store env rm url
    else ProcessIPFSPinRemovals.store env rm ""

/-- The consumer `ProcessIPFSPinRemovals`. -/
def ProcessIPFSPinRemovals (envs : Delivery → Env) (msgs : List Delivery) :
    List (List Event) :=
  msgs.map (fun d => ProcessIPFSPinRemovals.body (envs d) d)

/-! ## `ProcessIPFSKeyCreation` (queue/ipfs.go) -/

/-- Lines 93-128: create the key under `keyName`, derive its identity and store
the mapping on the user record. -/
def ProcessIPFSKeyCreation.create (env : Env) (key : IPFSKeyCreation) (keyTypeInt : KeyType)
    (bitsInt : Int) : List Event :=
  let keyName := key.UserName ++ "-" ++ key.Name
  Event.CreateAndSaveKey keyName keyTypeInt bitsInt ::
  match env.CreateAndSaveKey keyName keyTypeInt bitsInt with
  | .error _ => [Event.Ack false]
  | .ok pk =>
    Event.IDFromPrivateKey pk ::
    match env.IDFromPrivateKey pk with
    | .error _ => [Event.Ack false]
    | .ok id =>
      Event.AddIPFSKeyForUser key.UserName keyName id ::
      match env.AddIPFSKeyForUser key.UserName keyName id with
      | some _ => [Event.Ack false]
      | none => [Event.Ack false]

/-- The loop body of `ProcessIPFSKeyCreation` for one delivery (lines 42-129). -/
def ProcessIPFSKeyCreation.body (env : Env) (d : Delivery) : List Event :=
  match env.unmarshalKeyCreation d.Body with
  | .error _ => [Event.Ack false]
  | .ok key =>
    if key.NetworkName ≠ "public" then [Event.Ack false]
    else if key.Type_ = "rsa" then
      if key.Size > 4096 then [Event.Ack false]
      else ProcessIPFSKeyCreation.create env key KeyType.RSA key.Size
    else if key.Type_ = "ed25519" then
      ProcessIPFSKeyCreation.create env key KeyType.Ed25519 256
    else [Event.Ack false]

/-- The consumer `ProcessIPFSKeyCreation`. -/
def ProcessIPFSKeyCreation (envs : Delivery → Env) (msgs : List Delivery) :
    List (List Event) :=
  msgs.map (fun d => ProcessIPFSKeyCreation.body (envs d) d)

/-! ## `strconv.ParseInt(s, 10, 64)` -/

/-- The value of a decimal digit, `none` for any other character. -/
def digitValue (c : Char) : Option Nat :=
  if '0' ≤ c ∧ c ≤ '9' then some (c.toNat - '0'.toNat) else none

/-- Reads a run of decimal digits; `none` when a character is not a digit. -/
def parseDecimal : List Char → Nat → Option Nat
  | [], acc => some acc
  | c :: cs, acc =>
    match digitValue c with
    | none => none
    | some v => parseDecimal cs (acc * 10 + v)

/-- The magnitude read by `strconv.ParseUint(s, 10, 64)`, `none` on a syntax
error (empty input or a non-digit); the range is checked by `ParseInt`. -/
def ParseUint (cs : List Char) : Option Nat :=
  if cs = [] then none else parseDecimal cs 0

/-- The call `strconv.ParseInt(s, 10, 64)`: an optional sign followed by
decimal digits, denoting a value that fits a signed 64-bit integer. -/
def ParseInt (s : String) : Except GoError Int :=
  match s.toList with
  | [] => .error (GoError.other "invalid syntax")
  | c :: cs =>
    let neg := c = '-'
    let rest := if c = '+' ∨ c = '-' then cs else c :: cs
    match ParseUint rest with
    | none => .error (GoError.other "invalid syntax")
    | some un =>
      if ¬ neg ∧ un ≥ 2 ^ 63 then .error (GoError.other "value out of range")
      else if neg ∧ un > 2 ^ 63 then .error (GoError.other "value out of range")
      else .ok (if neg then - (un : Int) else (un : Int))

/-! ## `ProccessIPFSFiles` (queue/ipfs.go) -/

/-- Lines 713-722: the hold time, one month when the string does not parse. -/
def ProccessIPFSFiles.holdTimeInt (ipfsFile : IPFSFile) : Int :=
  match ParseInt ipfsFile.HoldTimeInMonths with
  | .error _ => 1
  | .ok n => n

/-- Lines 776-802: removal of the staged object and the final acknowledgement. -/
def ProccessIPFSFiles.cleanup (env : Env) (ipfsFile : IPFSFile) : List Event :=
  Event.RemoveObject ipfsFile.BucketName ipfsFile.ObjectName ::
  match env.RemoveObject ipfsFile.BucketName ipfsFile.ObjectName with
  | some _ => [Event.Ack false]
  | none => [Event.Ack false]

/-- Lines 740-775: the upload ledger upsert for the hash `resp`. -/
def ProccessIPFSFiles.ledger (env : Env) (ipfsFile : IPFSFile) (resp : String) : List Event :=
  let holdTimeInt := ProccessIPFSFiles.holdTimeInt ipfsFile
  Event.FindUploadByHashAndNetwork resp ipfsFile.NetworkName ::
  match env.FindUploadByHashAndNetwork resp ipfsFile.NetworkName with
  | some (GoError.other _) => [Event.Ack false]
  | some GoError.ErrRecordNotFound =>
    Event.NewUpload resp "file" ipfsFile.NetworkName ipfsFile.UserName holdTimeInt ::
    match env.NewUpload resp "file" ipfsFile.NetworkName ipfsFile.UserName holdTimeInt with
    | some _ => [Event.Ack false]
    | none => ProccessIPFSFiles.cleanup env ipfsFile
  | none =>
    Event.UpdateUpload holdTimeInt ipfsFile.UserName resp ipfsFile.NetworkName ::
    match env.UpdateUpload holdTimeInt ipfsFile.UserName resp ipfsFile.NetworkName with
    | some _ => [Event.Ack false]
    | none => ProccessIPFSFiles.cleanup env ipfsFile

/-- Lines 651-738: fetch the staged object, add it through `ipfsManager`,
forward a pin request for the resulting hash, then the ledger. -/
def ProccessIPFSFiles.add (env : Env) (ipfsManager : IpfsManager) (ipfsFile : IPFSFile) :
    List Event :=
  Event.GetObject ipfsFile.BucketName ipfsFile.ObjectName ::
  match env.GetObject ipfsFile.BucketName ipfsFile.ObjectName with
  | .error _ => [Event.Ack false]
  | .ok obj =>
    Event.Add ipfsManager obj ::
    match env.Add ipfsManager obj with
    | .error _ =>
      [Event.PublishEmail
        { Subject := env.consts.IpfsFileFailedSubject
          Content := env.consts.IpfsFileFailedContent ipfsFile.ObjectName ipfsFile.NetworkName
          ContentType := ""
          UserNames := [ipfsFile.UserName]
          Emails := [] },
       Event.Ack false]
    | .ok resp =>
      Event.PublishPinWithExchange
        { CID := resp
          NetworkName := ipfsFile.NetworkName
          UserName := ipfsFile.UserName
          HoldTimeInMonths := ProccessIPFSFiles.holdTimeInt ipfsFile
          CreditCost := 0 }
        env.consts.PinExchange ::
      ProccessIPFSFiles.ledger env ipfsFile resp

/-- The loop body of `ProccessIPFSFiles` for one delivery (lines 554-803).  The
variable `ipfsManager` is declared outside the loop (line 515) and assigned
inside it (line 623), so the body takes its current value and returns the value
it leaves behind.  `rtfs.Initialize` is taken to return the nil pointer together
with a non-nil error. -/
def ProccessIPFSFiles.body (env : Env) (ipfsManager : IpfsManager) (d : Delivery) :
    List Event × IpfsManager :=
  match env.unmarshalFile d.Body with
  | .error _ => ([Event.Ack false], ipfsManager)
  | .ok ipfsFile =>
    if ipfsFile.NetworkName ≠ "public" then
      match env.CheckIfUserHasAccessToNetwork ipfsFile.UserName ipfsFile.NetworkName with
      | .error _ =>
        ([Event.CheckIfUserHasAccessToNetwork ipfsFile.UserName ipfsFile.NetworkName,
          Event.Ack false], ipfsManager)
      | .ok false =>
        ([Event.CheckIfUserHasAccessToNetwork ipfsFile.UserName ipfsFile.NetworkName,
          Event.PublishEmail
            { Subject := env.consts.IpfsPrivateNetworkUnauthorizedSubject
              Content := "Unauthorized access to IPFS private network " ++ ipfsFile.NetworkName
              ContentType := ""
              UserNames := [ipfsFile.UserName]
              Emails := [] },
          Event.Ack false], ipfsManager)
      | .ok true =>
        match env.GetAPIURLByName ipfsFile.NetworkName with
        | .error _ =>
          ([Event.CheckIfUserHasAccessToNetwork ipfsFile.UserName ipfsFile.NetworkName,
            Event.GetAPIURLByName ipfsFile.NetworkName,
            Event.Ack false], ipfsManager)
        | .ok apiURL =>
          match env.rtfsInitialize "" apiURL with
          | some err =>
            ([Event.CheckIfUserHasAccessToNetwork ipfsFile.UserName ipfsFile.NetworkName,
              Event.GetAPIURLByName ipfsFile.NetworkName,
              Event.rtfsInitialize "" apiURL,
              Event.PublishEmail
                { Subject := env.consts.IpfsInitializationFailedSubject
                  Content := "Connection to IPFS failed due to the following error "
                    ++ err.Error
                  ContentType := ""
                  UserNames := [ipfsFile.UserName]
                  Emails := [] },
              Event.Ack false], none)
          | none =>
            (Event.CheckIfUserHasAccessToNetwork ipfsFile.UserName ipfsFile.NetworkName ::
              Event.GetAPIURLByName ipfsFile.NetworkName ::
              Event.rtfsInitialize "" apiURL ::
              ProccessIPFSFiles.add env (some apiURL) ipfsFile, some apiURL)
    else (ProccessIPFSFiles.add env ipfsManager ipfsFile, ipfsManager)

/-- The loop of `ProccessIPFSFiles` over the deliveries `msgs`, from the current
value of `ipfsManager`. -/
def ProccessIPFSFiles.loop (envs : Delivery → Env) :
    IpfsManager → List Delivery → List (List Event)
  | _, [] => []
  | ipfsManager, d :: ds =>
    (ProccessIPFSFiles.body (envs d) ipfsManager d).1 ::
      ProccessIPFSFiles.loop envs (ProccessIPFSFiles.body (envs d) ipfsManager d).2 ds

/-- The consumer `ProccessIPFSFiles` once its set-up has succeeded: line 515
opens `ipfsManager` on the default endpoint. -/
def ProccessIPFSFiles (envs : Delivery → Env) (msgs : List Delivery) : List (List Event) :=
  ProccessIPFSFiles.loop envs (some "") msgs

/-! ## `ProcessIPFSClusterPins` (queue/ipfs_cluster.go) -/

/-- Lines 64-90: the upload ledger upsert and the final acknowledgement. -/
def ProcessIPFSClusterPins.ledger (env : Env) (clusterAdd : IPFSClusterPin) : List Event :=
  Event.FindUploadByHashAndNetwork clusterAdd.CID clusterAdd.NetworkName ::
  match env.FindUploadByHashAndNetwork clusterAdd.CID clusterAdd.NetworkName with
  | some (GoError.other _) => [Event.Ack false]
  | some GoError.ErrRecordNotFound =>
    Event.NewUpload clusterAdd.CID "pin-cluster" clusterAdd.NetworkName clusterAdd.UserName
      clusterAdd.HoldTimeInMonths ::
    match env.NewUpload clusterAdd.CID "pin-cluster" clusterAdd.NetworkName
      clusterAdd.UserName clusterAdd.HoldTimeInMonths with
    | some _ => [Event.Ack false]
    | none => [Event.Ack false]
  | none =>
    Event.UpdateUpload clusterAdd.HoldTimeInMonths clusterAdd.UserName clusterAdd.CID
      clusterAdd.NetworkName ::
    match env.UpdateUpload clusterAdd.HoldTimeInMonths clusterAdd.UserName clusterAdd.CID
      clusterAdd.NetworkName with
    | some _ => [Event.Ack false]
    | none => [Event.Ack false]

/-- The loop body of `ProcessIPFSClusterPins` for one delivery (lines 33-91). -/
def ProcessIPFSClusterPins.body (env : Env) (d : Delivery) : List Event :=
  match env.unmarshalClusterPin d.Body with
  | .error _ => [Event.Ack false]
  | .ok clusterAdd =>
    if clusterAdd.NetworkName ≠ "public" then
      [Event.refundCredits clusterAdd.UserName "pin" clusterAdd.CreditCost, Event.Ack false]
    else
      Event.DecodeHashString clusterAdd.CID ::
      match env.DecodeHashString clusterAdd.CID with
      | .error _ =>
        [Event.refundCredits clusterAdd.UserName "pin" clusterAdd.CreditCost, Event.Ack false]
      | .ok encodedCid =>
        Event.ClusterPin encodedCid ::
        match env.ClusterPin encodedCid with
        | some _ =>
          [Event.refundCredits clusterAdd.UserName "pin" clusterAdd.CreditCost,
           Event.Ack false]
        | none => ProcessIPFSClusterPins.ledger env clusterAdd

/-- The consumer `ProcessIPFSClusterPins`. -/
def ProcessIPFSClusterPins (envs : Delivery → Env) (msgs : List Delivery) :
    List (List Event) :=
  msgs.map (fun d => ProcessIPFSClusterPins.body (envs d) d)

/-! ## `ProcessIPNSEntryCreationRequests` (queue/ipns.go) -/

/-- Lines 102-140: derive the identity of the published key and store the
record. -/
def ProcessIPNSEntryCreationRequests.record (env : Env) (ie : IPNSEntry) (pk2 : String) :
    List Event :=
  Event.IDFromPrivateKey pk2 ::
  match env.IDFromPrivateKey pk2 with
  | .error _ => [Event.Ack false]
  | .ok id =>
    Event.FindByIPNSHash id ::
    match env.FindByIPNSHash id with
    | none =>
      Event.UpdateIPNSEntry id ie.CID ie.NetworkName ie.UserName ie.LifeTime ie.TTL ::
      match env.UpdateIPNSEntry id ie.CID ie.NetworkName ie.UserName ie.LifeTime ie.TTL with
      | some _ => [Event.Ack false]
      | none => [Event.Ack false]
    | some _ =>
      Event.CreateEntry id ie.CID ie.Key ie.NetworkName ie.UserName ie.LifeTime ie.TTL ::
      match env.CreateEntry id ie.CID ie.Key ie.NetworkName ie.UserName ie.LifeTime ie.TTL with
      | some _ => [Event.Ack false]
      | none => [Event.Ack false]

/-- Lines 76-101: fetch the private key, publish the record with its end of
life. -/
def ProcessIPNSEntryCreationRequests.publish (env : Env) (ie : IPNSEntry) : List Event :=
  Event.GetPrivateKey ie.Key ::
  match env.GetPrivateKey ie.Key with
  | .error _ =>
    [Event.refundCredits ie.UserName "ipns" ie.CreditCost, Event.Ack false]
  | .ok resp =>
    Event.UnmarshalPrivateKey resp ::
    match env.UnmarshalPrivateKey resp with
    | .error _ =>
      [Event.refundCredits ie.UserName "ipns" ie.CreditCost, Event.Ack false]
    | .ok pk2 =>
      let eol := env.Now + ie.LifeTime
      Event.PublishWithEOL ie.TTL pk2 ie.CID eol ::
      match env.PublishWithEOL ie.TTL pk2 ie.CID eol with
      | some _ =>
        [Event.refundCredits ie.UserName "ipns" ie.CreditCost, Event.Ack false]
      | none => ProcessIPNSEntryCreationRequests.record env ie pk2

/-- The loop body of `ProcessIPNSEntryCreationRequests` for one delivery
(lines 54-141). -/
def ProcessIPNSEntryCreationRequests.body (env : Env) (d : Delivery) : List Event :=
  Event.NewPublisher ::
  match env.NewPublisher with
  | some _ => [Event.Ack false]
  | none =>
    match env.unmarshalIPNSEntry d.Body with
    | .error _ => [Event.Ack false]
    | .ok ie =>
      if ie.NetworkName ≠ "public" then
        [Event.refundCredits ie.UserName "ipns" ie.CreditCost, Event.Ack false]
      else ProcessIPNSEntryCreationRequests.publish env ie

/-- The consumer `ProcessIPNSEntryCreationRequests`. -/
def ProcessIPNSEntryCreationRequests (envs : Delivery → Env) (msgs : List Delivery) :
    List (List Event) :=
  msgs.map (fun d => ProcessIPNSEntryCreationRequests.body (envs d) d)

/-! ## `ProcessMailSends` (queue/mail.go) -/

/-- Lines 30-39: the loop `for k, v := range es.Emails` from index `k`, with the
current value of `emailSent`; `userNames` is `es.UserNames[k:]`.  Returns the
calls made and the final `emailSent`, or `none` for it when indexing
`es.UserNames` went out of range. -/
def ProcessMailSends.sendLoop (env : Env) (es : EmailSend) :
    List String → List String → Bool → List Event × Option Bool
  | _, [], emailSent => ([], some emailSent)
  | [], _ :: _, _ => ([Event.indexOutOfRange], none)
  | u :: us, v :: vs, _ =>
    match env.SendEmail es.Subject es.Content es.ContentType u v with
    | some _ =>
      let r := ProcessMailSends.sendLoop env es us vs false
      (Event.SendEmail es.Subject es.Content es.ContentType u v :: Event.Ack false :: r.1, r.2)
    | none =>
      let r := ProcessMailSends.sendLoop env es us vs true
      (Event.SendEmail es.Subject es.Content es.ContentType u v :: r.1, r.2)

/-- The loop body of `ProcessMailSends` for one delivery (lines 21-45). -/
def ProcessMailSends.body (env : Env) (d : Delivery) : List Event :=
  match env.unmarshalEmailSend d.Body with
  | .error _ => [Event.Ack false]
  | .ok es =>
    match ProcessMailSends.sendLoop env es es.UserNames es.Emails false with
    | (evs, some true) => evs ++ [Event.Ack false]
    | (evs, _) => evs

/-! ## `ConsumeMessage` (queue/queue.go): the database queues -/

/-- Job of the queue `dpa-queue`. -/
structure DatabasePinAdd where
  Hash : String
  HoldTimeInMonths : Int
  UploaderAddress : String
deriving DecidableEq, Repr

/-- Job of the queue `dfa-queue`. -/
structure DatabaseFileAdd where
  Hash : String
  HoldTimeInMonths : Int
  UploaderAddress : String
deriving DecidableEq, Repr

/-- `Unix()` of the zero `time.Time` (1 January of year 1, 00:00 UTC). -/
def zeroTimeUnix : Int := -62135596800

/-- The fields of `models.Upload` that `ConsumeMessage` reads or writes.  A
`time.Time` is kept as its `Unix()` value, the only way the code looks at it. -/
structure Upload where
  Hash : String
  HoldTimeInMonths : Int
  Type_ : String
  UploadAddress : String
  UploaderAddresses : List String
  GarbageCollectDate : Int
deriving DecidableEq, Repr

/-- The value `models.Upload{Hash: hash}`: every other field is zero. -/
def Upload.withHash (hash : String) : Upload :=
  { Hash := hash
    HoldTimeInMonths := 0
    Type_ := ""
    UploadAddress := ""
    UploaderAddresses := []
    GarbageCollectDate := zeroTimeUnix }

/-- The uploads table, rows in insertion order. -/
abbrev DB := List Upload

/-- The call `db.Last(&lastUpload)` of gorm (`github.com/jinzhu/gorm`, imported
by database/database.go): the query orders the table by primary key and reads
its last row into `lastUpload`.  Of the fields set on `lastUpload` only a
non-zero primary key becomes a condition, so the `Hash` set by the caller does
not select the row: the row read is the last of the whole table, whatever its
hash.  On an empty table no record is found and `lastUpload` is left as it
was. -/
def DB.Last (db : DB) (lastUpload : Upload) : Upload :=
  match db.getLast? with
  | some u => u
  | none => lastUpload

/-- The call `db.Create(&upload)`: the row is appended (the code does not look
at the outcome of the call). -/
def DB.Create (db : DB) (upload : Upload) : DB :=
  db ++ [upload]

/-- The expression `strconv.Atoi(fmt.Sprint(n))` for an integer `n`: the decimal
rendering of `n` reads back as `n`, and the call fails only when `n` does not
fit the 64-bit `int`. -/
def AtoiSprint (n : Int) : Except GoError Int :=
  if -(2 ^ 63) ≤ n ∧ n < 2 ^ 63 then .ok n else .error (GoError.other "value out of range")

/-- Outcomes of the calls `ConsumeMessage` makes outside the database during one
delivery. -/
structure ConsumeEnv where
  unmarshalDatabasePinAdd : String → Except GoError DatabasePinAdd
  unmarshalDatabaseFileAdd : String → Except GoError DatabaseFileAdd
  /-- `time.Now().Unix()`. -/
  Now : Int
  /-- `t.AddDate(0, months, 0).Unix()` as a function of `t.Unix()` and `months`. -/
  AddDate : Int → Int → Int
  DecodeHashString : String → Except GoError String
  Pin : String → Option GoError

/-- Lines 255-265: the goroutine started by the file branch, which decodes the
hash and pins it to the cluster.  Its calls are listed at the point where the
goroutine is started. -/
def ConsumeMessage.clusterPin (env : ConsumeEnv) (hash : String) : List Event :=
  Event.DecodeHashString hash ::
  match env.DecodeHashString hash with
  | .error _ => []
  | .ok decodedHash => [Event.ClusterPin decodedHash]

/-- The loop body of the `DatabasePinAddQueue` case for one delivery
(lines 164-208): the calls made and the table afterwards. -/
def ConsumeMessage.DatabasePinAddQueue (env : ConsumeEnv) (db : DB) (d : Delivery) :
    List Event × DB :=
  match d.Body with
  | none => ([], db)
  | some body =>
    match env.unmarshalDatabasePinAdd body with
    | .error _ => ([Event.Ack false], db)
    | .ok dpa =>
      match AtoiSprint dpa.HoldTimeInMonths with
      | .error _ => ([Event.Ack false], db)
      | .ok holdTime =>
        let gcd := env.AddDate env.Now holdTime
        let lastUpload := DB.Last db (Upload.withHash dpa.Hash)
        if lastUpload.GarbageCollectDate ≥ gcd then ([Event.Ack false], db)
        else
          ([Event.Ack false],
           DB.Create db
            { Hash := dpa.Hash
              HoldTimeInMonths := dpa.HoldTimeInMonths
              Type_ := "pin"
              UploadAddress := dpa.UploaderAddress
              UploaderAddresses := lastUpload.UploaderAddresses ++ [dpa.UploaderAddress]
              GarbageCollectDate := gcd })

/-- The loop body of the `DatabaseFileAddQueue` case for one delivery
(lines 212-269): the calls made and the table afterwards. -/
def ConsumeMessage.DatabaseFileAddQueue (env : ConsumeEnv) (db : DB) (d : Delivery) :
    List Event × DB :=
  match d.Body with
  | none => ([], db)
  | some body =>
    match env.unmarshalDatabaseFileAdd body with
    | .error _ => ([Event.Ack false], db)
    | .ok dfa =>
      match AtoiSprint dfa.HoldTimeInMonths with
      | .error _ => ([Event.Ack false], db)
      | .ok holdTime =>
        let gcd := env.AddDate env.Now holdTime
        let lastUpload := DB.Last db (Upload.withHash dfa.Hash)
        if lastUpload.GarbageCollectDate ≥ gcd then ([Event.Ack false], db)
        else
          (ConsumeMessage.clusterPin env dfa.Hash ++ [Event.Ack false],
           DB.Create db
            { Hash := dfa.Hash
              HoldTimeInMonths := dfa.HoldTimeInMonths
              Type_ := "file"
              UploadAddress := dfa.UploaderAddress
              UploaderAddresses := lastUpload.UploaderAddresses ++ [dfa.UploaderAddress]
              GarbageCollectDate := gcd })

/-- The table after the bodies of one of the two cases ran on the deliveries
`msgs` in turn. -/
def ConsumeMessage.run (body : ConsumeEnv → DB → Delivery → List Event × DB)
    (env : ConsumeEnv) : DB → List Delivery → DB
  | db, [] => db
  | db, d :: ds => ConsumeMessage.run body env (body env db d).2 ds

/-! ## `time.Time.AddDate(0, months, 0)` in UTC -/

/-- The value of a 64-bit signed integer after wrap-around. -/
def wrapInt64 (x : Int) : Int :=
  (x + 2 ^ 63) % 2 ^ 64 - 2 ^ 63

/-- Year, month and day of the day `z` days after 1 January 1970: what
`t.Date()` returns for a UTC time on that day. -/
def civilFromDays (z : Int) : Int × Int × Int :=
  let z1 := z + 719468
  let era := z1 / 146097
  let doe := z1 - era * 146097
  let yoe := (doe - doe / 1460 + doe / 36524 - doe / 146096) / 365
  let doy := doe - (365 * yoe + yoe / 4 - yoe / 100)
  let mp := (5 * doy + 2) / 153
  let d := doy - (153 * mp + 2) / 5 + 1
  let m := if mp < 10 then mp + 3 else mp - 9
  (if m ≤ 2 then yoe + era * 400 + 1 else yoe + era * 400, m, d)

/-- `norm(hi, lo, base)` of Go's package `time`: `lo` is brought into
`[0, base)` and the carry goes to `hi`.  The arithmetic is that of the 64-bit
`int`: every result wraps around and the division truncates toward zero. -/
def goNorm (hi lo base : Int) : Int × Int :=
  let r :=
    if lo < 0 then
      let n := wrapInt64 (Int.tdiv (wrapInt64 (wrapInt64 (-lo) - 1)) base + 1)
      (wrapInt64 (hi - n), wrapInt64 (lo + wrapInt64 (n * base)))
    else (hi, lo)
  if r.2 ≥ base then
    let n := Int.tdiv r.2 base
    (wrapInt64 (r.1 + n), wrapInt64 (r.2 - wrapInt64 (n * base)))
  else r

/-- The table `daysBefore` of Go's package `time`: the days of a non-leap year
before the month with index `m`, January having index 0. -/
def goDaysBefore (m : Int) : Int :=
  ([0, 31, 59, 90, 120, 151, 181, 212, 243, 273, 304, 334, 365] : List Int).getD m.toNat 0

/-- `isLeap(year)` of Go's package `time`. -/
def goIsLeap (year : Int) : Bool :=
  decide (year % 4 = 0 ∧ (year % 100 ≠ 0 ∨ year % 400 = 0))

/-- `Date(year, month, day, hour, min, sec, 0, UTC).Unix()` of Go's package
`time`, for a day of the month `day ≥ 1` and a time of day of `secs` seconds
(`hour`, `min` and `sec` in range): the month is normalised into the year, the
days since the absolute epoch (1 January of the year -292277022399) are counted
in 400-year, 100-year, 4-year and 1-year cycles, and the seconds since that
epoch are shifted to the Unix epoch.  The day count and the seconds are `uint64`
values and the result an `int64`: they wrap around. -/
def goDate (year month day secs : Int) : Int :=
  let ym := goNorm year (wrapInt64 (month - 1)) 12
  let y0 := (ym.1 + 292277022399) % 2 ^ 64
  let n400 := y0 / 400
  let y1 := y0 - 400 * n400
  let n100 := y1 / 100
  let y2 := y1 - 100 * n100
  let n4 := y2 / 4
  let y3 := y2 - 4 * n4
  let d := 146097 * n400 + 36524 * n100 + 1461 * n4 + 365 * y3 + goDaysBefore ym.2 +
    (if goIsLeap ym.1 = true ∧ ym.2 + 1 ≥ 3 then 1 else 0) + (day - 1)
  let abs := (d % 2 ^ 64 * 86400 + secs) % 2 ^ 64
  wrapInt64 (wrapInt64 abs - 9223372028715321600)

/-- `t.AddDate(0, months, 0).Unix()` for a UTC time with `t.Unix() = unix`, as
Go's package `time` computes it: `Date(year, month + Month(months), day, hour,
min, sec, nsec, loc)` on the date and clock of `t`.  The month count is added to
the month in 64-bit arithmetic; the day of the month and the time of day are
kept, so a day past the end of the new month runs over into the next one. -/
def goAddDate (unix months : Int) : Int :=
  let ymd := civilFromDays (unix / 86400)
  goDate ymd.1 (wrapInt64 (ymd.2.1 + months)) ymd.2.2 (unix % 86400)

/-! ## Observations on a list of calls -/

/-- Number of `d.Ack` calls. -/
def acks (t : List Event) : Nat :=
  t.countP (fun e => match e with | Event.Ack _ => true | _ => false)

/-- Number of `d.Nack` calls. -/
def nacks (t : List Event) : Nat :=
  t.countP (fun e => match e with | Event.Nack _ _ => true | _ => false)

/-- Modelled from the spec: `refundCredits` is not among the sources; the spec
has the credit balance "mutated only via the Credit Refund compensating action",
which credits the billed amount back to the user.  The balances after the calls
of `t`, from the balances `bal`. -/
def creditsAfter (bal : String → Credits) (t : List Event) : String → Credits :=
  t.foldl
    (fun b e =>
      match e with
      | Event.refundCredits user _ cost => fun u => if u = user then b u + cost else b u
      | _ => b)
    bal

/-- Arguments of the access control checks, in call order. -/
def accessChecks (t : List Event) : List (String × String) :=
  t.filterMap (fun e =>
    match e with
    | Event.CheckIfUserHasAccessToNetwork user network => some (user, network)
    | _ => none)

/-- Network names whose API endpoint was looked up. -/
def endpointLookups (t : List Event) : List String :=
  t.filterMap (fun e => match e with | Event.GetAPIURLByName network => some network | _ => none)

/-- Connection URLs on which a store connection was opened. -/
def storeOpens (t : List Event) : List String :=
  t.filterMap (fun e => match e with | Event.rtfsInitialize _ url => some url | _ => none)

/-- Content hashes of the store-pin calls. -/
def storePins (t : List Event) : List String :=
  t.filterMap (fun e => match e with | Event.Pin _ cid => some cid | _ => none)

/-- Content hashes of the store-unpin calls. -/
def storeUnpins (t : List Event) : List String :=
  t.filterMap (fun e => match e with | Event.Unpin _ hash => some hash | _ => none)

/-- Jobs published to the cluster pin queue. -/
def clusterPinJobs (t : List Event) : List IPFSClusterPin :=
  t.filterMap (fun e => match e with | Event.PublishClusterPin msg => some msg | _ => none)

/-- Notifications published to the email queue. -/
def notifications (t : List Event) : List EmailSend :=
  t.filterMap (fun e => match e with | Event.PublishEmail es => some es | _ => none)

/-- Upload ledger lookups, as (hash, network). -/
def ledgerLookups (t : List Event) : List (String × String) :=
  t.filterMap (fun e =>
    match e with
    | Event.FindUploadByHashAndNetwork hash network => some (hash, network)
    | _ => none)

/-- Upload ledger inserts, as (hash, kind, network, user, hold time). -/
def ledgerInserts (t : List Event) : List (String × String × String × String × Int) :=
  t.filterMap (fun e =>
    match e with
    | Event.NewUpload hash kind network user hold => some (hash, kind, network, user, hold)
    | _ => none)

/-- Upload ledger updates, as (hold time, user, hash, network). -/
def ledgerUpdates (t : List Event) : List (Int × String × String × String) :=
  t.filterMap (fun e =>
    match e with
    | Event.UpdateUpload hold user hash network => some (hold, user, hash, network)
    | _ => none)

/-- Credit refunds, as (user, call type, amount). -/
def refundCalls (t : List Event) : List (String × String × Credits) :=
  t.filterMap (fun e =>
    match e with
    | Event.refundCredits user callType cost => some (user, callType, cost)
    | _ => none)

/-- Content hashes handed to the cluster's hash decoder. -/
def decodeCalls (t : List Event) : List String :=
  t.filterMap (fun e => match e with | Event.DecodeHashString cid => some cid | _ => none)

/-- Decoded hashes of the cluster pin calls. -/
def clusterPins (t : List Event) : List String :=
  t.filterMap (fun e => match e with | Event.ClusterPin c => some c | _ => none)

/-- Pin jobs published by the file add body, with the exchange they go to. -/
def pinJobs (t : List Event) : List (IPFSPin × String) :=
  t.filterMap (fun e =>
    match e with
    | Event.PublishPinWithExchange msg exchange => some (msg, exchange)
    | _ => none)

/-- Store-add calls, as (store client, payload). -/
def storeAdds (t : List Event) : List (IpfsManager × String) :=
  t.filterMap (fun e => match e with | Event.Add manager obj => some (manager, obj) | _ => none)

/-- Staged objects handed to `RemoveObject`, as (bucket, object). -/
def stagingRemovals (t : List Event) : List (String × String) :=
  t.filterMap (fun e =>
    match e with
    | Event.RemoveObject bucket object => some (bucket, object)
    | _ => none)

/-- Key names requested from the credential service. -/
def credentialCalls (t : List Event) : List String :=
  t.filterMap (fun e => match e with | Event.GetPrivateKey name => some name | _ => none)

/-- Naming records published, as (ttl, key, content hash, end of life). -/
def namePublishes (t : List Event) : List (Int × String × String × Int) :=
  t.filterMap (fun e =>
    match e with
    | Event.PublishWithEOL ttl pk cid eol => some (ttl, pk, cid, eol)
    | _ => none)

/-- Identities looked up in the IPNS record store. -/
def ipnsLookups (t : List Event) : List String :=
  t.filterMap (fun e => match e with | Event.FindByIPNSHash id => some id | _ => none)

/-- IPNS record updates, as (identity, content hash, network, user, lifetime,
ttl). -/
def ipnsUpdates (t : List Event) : List (String × String × String × String × Int × Int) :=
  t.filterMap (fun e =>
    match e with
    | Event.UpdateIPNSEntry id cid network user lifetime ttl =>
      some (id, cid, network, user, lifetime, ttl)
    | _ => none)

/-- IPNS record inserts, as (identity, content hash, key name, network, user,
lifetime, ttl). -/
def ipnsInserts (t : List Event) :
    List (String × String × String × String × String × Int × Int) :=
  t.filterMap (fun e =>
    match e with
    | Event.CreateEntry id cid key network user lifetime ttl =>
      some (id, cid, key, network, user, lifetime, ttl)
    | _ => none)

/-- Key generations, as (key name, key family, bit length). -/
def keyCreations (t : List Event) : List (String × KeyType × Int) :=
  t.filterMap (fun e =>
    match e with
    | Event.CreateAndSaveKey name keyType bits => some (name, keyType, bits)
    | _ => none)

/-- Key mappings stored on the user record, as (user, key name, identity). -/
def keyPersists (t : List Event) : List (String × String × String) :=
  t.filterMap (fun e =>
    match e with
    | Event.AddIPFSKeyForUser user keyName id => some (user, keyName, id)
    | _ => none)

/-! ## The hold time as the specification words it -/

/-- The number written by a run of decimal digits, most significant first. -/
def decimalValue (digits : List Char) : Nat :=
  digits.foldl (fun acc c => acc * 10 + (c.toNat - 48)) 0

/-- The integer denoted by `s` as "a valid base-10 signed 64-bit integer": an
optional sign, then one or more of the digits 0 to 9, with a value from
`-2^63` to `2^63 - 1`; `none` for every other string. -/
def denotedInt64 (s : String) : Option Int :=
  let neg : Bool := s.toList.head? = some '-'
  let digits : List Char :=
    if s.toList.head? = some '-' ∨ s.toList.head? = some '+' then s.toList.tail else s.toList
  if digits ≠ [] ∧ digits.all Char.isDigit = true then
    let v : Int := if neg then - (decimalValue digits : Int) else (decimalValue digits : Int)
    if -(2 ^ 63) ≤ v ∧ v ≤ 2 ^ 63 - 1 then some v else none
  else none

/-- The hold time of a file add job as the specification words it: the integer
denoted by the string, one month for every other string. -/
def specHoldTime (ipfsFile : IPFSFile) : Int :=
  (denotedInt64 ipfsFile.HoldTimeInMonths).getD 1

/-! ## Sample inputs -/

/-- Sample values for the package constants. -/
def sampleConstants : Constants where
  IpfsPrivateNetworkUnauthorizedSubject := "Unauthorized access to IPFS private network"
  IpfsInitializationFailedSubject := "Connection to IPFS failed"
  IpfsPinFailedSubject := "IPFS Pin Failed"
  IpfsFileFailedSubject := "IPFS File Add Failed"
  PinExchange := "ipfs-pin"
  IpfsPinFailedContent := fun cid network err =>
    "Pin failed for content hash " ++ cid ++ " on IPFS network " ++ network ++ ": " ++ err
  IpfsFileFailedContent := fun object network =>
    "IPFS File Add Failed for object name " ++ object ++ " on IPFS network " ++ network

/-- The pin job of the scenario in the specification. -/
def samplePin : IPFSPin where
  CID := "Qm123"
  NetworkName := "public"
  UserName := "alice"
  HoldTimeInMonths := 3
  CreditCost := 10

/-- A cluster pin job for the same content. -/
def sampleClusterPin : IPFSClusterPin where
  CID := "Qm123"
  NetworkName := "public"
  UserName := "alice"
  HoldTimeInMonths := 3
  CreditCost := 10

/-- An environment in which every body decodes to the sample job of its queue,
every call succeeds, access is granted and no upload or IPNS record exists
yet. -/
def sampleEnv : Env where
  consts := sampleConstants
  unmarshalKeyCreation := fun _ =>
    .ok { UserName := "alice", Name := "k1", Type_ := "rsa", Size := 2048,
          NetworkName := "public" }
  unmarshalPin := fun _ => .ok samplePin
  unmarshalPinRemoval := fun _ =>
    .ok { ContentHash := "Qm123", NetworkName := "public", UserName := "alice" }
  unmarshalFile := fun _ =>
    .ok { BucketName := "filesuploadbucket", ObjectName := "obj1", UserName := "alice",
          NetworkName := "public", HoldTimeInMonths := "3" }
  unmarshalClusterPin := fun _ => .ok sampleClusterPin
  unmarshalIPNSEntry := fun _ =>
    .ok { CID := "Qm123", LifeTime := 3600000000000, TTL := 60000000000, Key := "alice-k1",
          UserName := "alice", NetworkName := "public", CreditCost := 10 }
  unmarshalEmailSend := fun _ =>
    .ok { Subject := "s", Content := "c", ContentType := "", UserNames := ["alice"],
          Emails := ["alice@example.org"] }
  CheckIfUserHasAccessToNetwork := fun _ _ => .ok true
  GetAPIURLByName := fun network => .ok ("http://" ++ network ++ ":5001")
  rtfsInitialize := fun _ _ => none
  Pin := fun _ _ => none
  Unpin := fun _ _ => none
  Add := fun _ obj => .ok ("Qm" ++ obj)
  PublishEmail := fun _ => none
  PublishClusterPin := fun _ => none
  PublishPinWithExchange := fun _ _ => none
  FindUploadByHashAndNetwork := fun _ _ => some GoError.ErrRecordNotFound
  NewUpload := fun _ _ _ _ _ => none
  UpdateUpload := fun _ _ _ _ => none
  DecodeHashString := fun cid => .ok cid
  ClusterPin := fun _ => none
  GetObject := fun _ object => .ok object
  RemoveObject := fun _ _ => none
  CreateAndSaveKey := fun name _ _ => .ok ("pk-" ++ name)
  IDFromPrivateKey := fun pk => .ok ("id-" ++ pk)
  AddIPFSKeyForUser := fun _ _ _ => none
  NewPublisher := none
  GetPrivateKey := fun name => .ok ("bytes-" ++ name)
  UnmarshalPrivateKey := fun bytes => .ok ("pk-" ++ bytes)
  PublishWithEOL := fun _ _ _ _ => none
  FindByIPNSHash := fun _ => some GoError.ErrRecordNotFound
  UpdateIPNSEntry := fun _ _ _ _ _ _ => none
  CreateEntry := fun _ _ _ _ _ _ _ => none
  SendEmail := fun _ _ _ _ _ => none
  Now := 1530000000000000000

/-- A delivery with a JSON body. -/
def sampleDelivery : Delivery where
  Body := some "{}"

/-- The sample pin job sent to a private network. -/
def privatePin : IPFSPin :=
  { samplePin with NetworkName := "net1" }

/-- The sample environment with a pin job for a private network to which access
is denied. -/
def deniedEnv : Env :=
  { sampleEnv with
    unmarshalPin := fun _ => .ok privatePin
    CheckIfUserHasAccessToNetwork := fun _ _ => .ok false }

/-- The sample cluster pin job sent to a private network. -/
def privateClusterPin : IPFSClusterPin :=
  { sampleClusterPin with NetworkName := "net1" }

/-- The sample environment with a cluster pin job for a private network. -/
def privateClusterEnv : Env :=
  { sampleEnv with unmarshalClusterPin := fun _ => .ok privateClusterPin }

/-- Bodies of the sample deliveries of the database pin queue, with the jobs
they decode to: the hash `Qm123` submitted by `0xA` or `0xB` for 3 or 12
months. -/
def samplePinAdds : List (String × DatabasePinAdd) :=
  [("A3", { Hash := "Qm123", HoldTimeInMonths := 3, UploaderAddress := "0xA" }),
   ("A12", { Hash := "Qm123", HoldTimeInMonths := 12, UploaderAddress := "0xA" }),
   ("B12", { Hash := "Qm123", HoldTimeInMonths := 12, UploaderAddress := "0xB" })]

/-- Bodies of the sample deliveries of the database file queue. -/
def sampleFileAdds : List (String × DatabaseFileAdd) :=
  [("A3", { Hash := "Qm123", HoldTimeInMonths := 3, UploaderAddress := "0xA" }),
   ("A12", { Hash := "Qm123", HoldTimeInMonths := 12, UploaderAddress := "0xA" })]

/-- Sample outcomes for `ConsumeMessage`: the bodies above decode to their jobs,
any other body is malformed; the time is 26 June 2018, 08:00 UTC; dates are
computed as Go does in UTC; the cluster calls succeed. -/
def sampleConsumeEnv : ConsumeEnv where
  unmarshalDatabasePinAdd := fun body =>
    match samplePinAdds.lookup body with
    | some dpa => .ok dpa
    | none => .error (GoError.other "invalid character")
  unmarshalDatabaseFileAdd := fun body =>
    match sampleFileAdds.lookup body with
    | some dfa => .ok dfa
    | none => .error (GoError.other "invalid character")
  Now := 1530000000
  AddDate := goAddDate
  DecodeHashString := fun hash => .ok hash
  Pin := fun _ => none

/-- A table holding one record for `Qm123`, uploaded by `0xA` and kept for 12
months from the sample time. -/
def sampleDB12 : DB :=
  [{ Hash := "Qm123", HoldTimeInMonths := 12, Type_ := "pin", UploadAddress := "0xA",
     UploaderAddresses := ["0xA"], GarbageCollectDate := goAddDate 1530000000 12 }]

/-- A table holding one record for `Qm123`, uploaded by `0xA` and kept for 3
months from the sample time. -/
def sampleDB3 : DB :=
  [{ Hash := "Qm123", HoldTimeInMonths := 3, Type_ := "pin", UploadAddress := "0xA",
     UploaderAddresses := ["0xA"], GarbageCollectDate := goAddDate 1530000000 3 }]

/-- A table holding one record, for the hash `QmOther`, uploaded by `0xB` and
kept for 12 months from the sample time. -/
def sampleDBOther : DB :=
  [{ Hash := "QmOther", HoldTimeInMonths := 12, Type_ := "pin", UploadAddress := "0xB",
     UploaderAddresses := ["0xB"], GarbageCollectDate := goAddDate 1530000000 12 }]

/-- The delivery carrying `body`. -/
def deliveryOf (body : String) : Delivery where
  Body := some body

/-- The sample file add job. -/
def sampleFile : IPFSFile where
  BucketName := "filesuploadbucket"
  ObjectName := "obj1"
  UserName := "alice"
  NetworkName := "public"
  HoldTimeInMonths := "3"

/-- The sample file add job sent to the private network `net1`. -/
def privateFile : IPFSFile :=
  { sampleFile with ObjectName := "obj0", UserName := "bob", NetworkName := "net1" }

/-- The sample environment in which removing the staged object fails. -/
def cleanupFailsEnv : Env :=
  { sampleEnv with RemoveObject := fun _ _ => some (GoError.other "bucket unreachable") }

/-- Outcomes for a worker of the file add queue: the delivery with body
`private` carries the job for the private network `net1`, every other delivery
the public sample job; every call succeeds. -/
def fileWorkerEnvs (d : Delivery) : Env :=
  if d.Body = some "private" then { sampleEnv with unmarshalFile := fun _ => .ok privateFile }
  else sampleEnv

/-- The sample IPNS job. -/
def sampleIPNSEntry : IPNSEntry where
  CID := "Qm123"
  LifeTime := 3600000000000
  TTL := 60000000000
  Key := "alice-k1"
  UserName := "alice"
  NetworkName := "public"
  CreditCost := 10

/-- The sample IPNS job sent to the private network `net1`. -/
def privateIPNSEntry : IPNSEntry :=
  { sampleIPNSEntry with NetworkName := "net1" }

/-- The sample environment with an IPNS job for a private network. -/
def privateIPNSEnv : Env :=
  { sampleEnv with unmarshalIPNSEntry := fun _ => .ok privateIPNSEntry }

/-- The same, with the construction of the local publisher failing. -/
def publisherFailsEnv : Env :=
  { privateIPNSEnv with NewPublisher := some (GoError.other "address already in use") }

/-- The sample environment in which the IPNS record exists already. -/
def ipnsRecordExistsEnv : Env :=
  { sampleEnv with FindByIPNSHash := fun _ => none }

/-- The sample environment in which the lookup of the IPNS record fails with an
error other than record not found. -/
def ipnsLookupFailsEnv : Env :=
  { sampleEnv with FindByIPNSHash := fun _ => some (GoError.other "connection refused") }

/-- The sample key creation job. -/
def sampleKey : IPFSKeyCreation where
  UserName := "alice"
  Name := "k1"
  Type_ := "rsa"
  Size := 2048
  NetworkName := "public"

/-- The key creation job of the scenario in the specification: 8192 bit RSA. -/
def bigKey : IPFSKeyCreation :=
  { sampleKey with Size := 8192 }

/-- The sample environment with the 8192 bit key creation job. -/
def bigKeyEnv : Env :=
  { sampleEnv with unmarshalKeyCreation := fun _ => .ok bigKey }

/-- Line 93 of queue/ipfs.go: `fmt.Sprintf("%s-%s", key.UserName, key.Name)`,
the name under which the key is created. -/
def ProcessIPFSKeyCreation.keyName (key : IPFSKeyCreation) : String :=
  key.UserName ++ "-" ++ key.Name

/-- The key creation job of `user` with the label `name`. -/
def keyJob (user name : String) : IPFSKeyCreation :=
  { sampleKey with UserName := user, Name := name }

/-- The sample cluster pin job as the pin consumer builds it from the sample pin
job: the credit cost is the zero value. -/
def forwardedClusterPin : IPFSClusterPin :=
  { sampleClusterPin with NetworkName := "net1", CreditCost := 0 }

/-! ## The `api` command (cmd/temporal/main.go, api/api.go) -/

/-- The `api.TLSConfig` of api/api.go. -/
structure TLSConfig where
  CertFile : String
  KeyFile : String
deriving DecidableEq, Repr

/-- Calls made by the `api` command. -/
inductive ApiCall where
  | apiInitialize (debug : Bool)
  | Fatal (err : GoError)
  | Run (addr : String)
  | RunTLS (addr certFile keyFile : String)
  | Close
deriving DecidableEq, Repr

/-- `API.ListenAndServe` (api/api.go lines 125-130): the router call it makes. -/
def API.ListenAndServe (addr : String) (tls : Option TLSConfig) : ApiCall :=
  match tls with
  | some t => ApiCall.RunTLS addr t.CertFile t.KeyFile
  | none => ApiCall.Run addr

/-- The action of `commands["api"]` (cmd/temporal/main.go lines 38-64).  `getenv`
is `os.Getenv`, `apiInitialize` the error returned by `api.Initialize` for the
debug flag, and `args` the flag map, an absent flag reading as the empty
string.  `log.Fatal` ends the process, so the deferred `Close` runs only after
the service was started. -/
def commands.api.Action (getenv : String → String) (apiInitialize : Bool → Option GoError)
    (args : String → String) : List ApiCall :=
  ApiCall.apiInitialize (decide (getenv "DEBUG" = "true")) ::
  match apiInitialize (decide (getenv "DEBUG" = "true")) with
  | some err => [ApiCall.Fatal err]
  | none =>
    let port := if getenv "API_PORT" = "" then "6767" else getenv "API_PORT"
    let addr := args "listenAddress" ++ ":" ++ port
    if args "certFilePath" = "" ∨ args "keyFilePath" = "" then
      [API.ListenAndServe addr none, ApiCall.Close]
    else
      [API.ListenAndServe addr
        (some { CertFile := args "certFilePath", KeyFile := args "keyFilePath" }),
       ApiCall.Close]

/-- The listeners started, as (address, certificate and key when served with
TLS). -/
def serves (t : List ApiCall) : List (String × Option (String × String)) :=
  t.filterMap (fun c =>
    match c with
    | ApiCall.Run addr => some (addr, none)
    | ApiCall.RunTLS addr certFile keyFile => some (addr, some (certFile, keyFile))
    | _ => none)

/-- The flag map of the cases of `TestAPI`. -/
def testFlags (listenAddress certFilePath keyFilePath : String) (flag : String) : String :=
  if flag = "listenAddress" then listenAddress
  else if flag = "certFilePath" then certFilePath
  else if flag = "keyFilePath" then keyFilePath
  else ""

/-- The environment of the cases of `TestAPI`: only `API_PORT` is set. -/
def testGetenv (port : String) (name : String) : String :=
  if name = "API_PORT" then port else ""

/-! ## `FileSizeCheck` (api/utils.go) -/

/-- The constant `int64(datasize.GB.Bytes())`: one gigabyte is `1 << 30` bytes. -/
def GBBytes : Int := 2 ^ 30

/-- `API.FileSizeCheck` (api/utils.go lines 47-61), for the configured
`api.cfg.API.SizeLimitInGigaBytes` and the package constant `FileTooBigError`. -/
def API.FileSizeCheck (FileTooBigError SizeLimitInGigaBytes : String) (size : Int) :
    Option GoError :=
  match ParseInt SizeLimitInGigaBytes with
  | .error err => some err
  | .ok sizeInt =>
    let gbInt := wrapInt64 (GBBytes * sizeInt)
    if size > gbInt then some (GoError.other FileTooBigError) else none

/-! ## The mail consumer: observations and sample jobs -/

/-- Per-recipient sends, as (subject, content, content type, user, email). -/
def sendCalls (t : List Event) : List (String × String × String × String × String) :=
  t.filterMap (fun e =>
    match e with
    | Event.SendEmail subject content contentType user email =>
      some (subject, content, contentType, user, email)
    | _ => none)

/-- The recipients the loop of `ProcessMailSends` visits when `es.UserNames` is
at least as long as `es.Emails`: the user name and the address at each index of
`es.Emails`. -/
def ProcessMailSends.recipients (es : EmailSend) : List (String × String) :=
  es.UserNames.zip es.Emails

/-- Whether the send of `es` to the recipient `r` returns an error. -/
def ProcessMailSends.sendFails (env : Env) (es : EmailSend) (r : String × String) : Bool :=
  (env.SendEmail es.Subject es.Content es.ContentType r.1 r.2).isSome

/-- Whether the body reaches the acknowledgement after the loop (line 44):
`emailSent` is true when the loop ends. -/
def ProcessMailSends.finalAckReached (env : Env) (es : EmailSend) : Bool :=
  (ProcessMailSends.sendLoop env es es.UserNames es.Emails false).2 == some true

/-- Sample outcomes for the mail consumer: the job carries the given user names
and addresses, and a send fails exactly when its address is in `failing`. -/
def mailEnv (userNames emails failing : List String) : Env :=
  { sampleEnv with
    unmarshalEmailSend := fun _ =>
      .ok { Subject := "s", Content := "c", ContentType := "", UserNames := userNames,
            Emails := emails }
    SendEmail := fun _ _ _ _ email =>
      if email ∈ failing then some (GoError.other "mailbox unavailable") else none }

/-- The mail job decoded in `mailEnv`. -/
def mailJob (userNames emails : List String) : EmailSend where
  Subject := "s"
  Content := "c"
  ContentType := ""
  UserNames := userNames
  Emails := emails

/-- The sample environment with a pin job for a private network for which the
access control check returns an error. -/
def accessErrorEnv : Env :=
  { sampleEnv with
    unmarshalPin := fun _ => .ok privatePin
    CheckIfUserHasAccessToNetwork := fun _ _ => .error (GoError.other "connection refused") }

/-! ## Theorems -/

/-- Every path of the pin body acknowledges once and never rejects. -/
theorem pins_body_acks (env : Env) (d : Delivery) :
    acks (ProccessIPFSPins.body env d) = 1 ∧ nacks (ProccessIPFSPins.body env d) = 0 := by
  unfold ProccessIPFSPins.body ProccessIPFSPins.store ProccessIPFSPins.ledger
  try dsimp only
  repeat' split
  all_goals simp [acks, nacks]

/-- Every path of the pin removal body acknowledges once and never rejects. -/
theorem pin_removals_body_acks (env : Env) (d : Delivery) :
    acks (ProcessIPFSPinRemovals.body env d) = 1 ∧
      nacks (ProcessIPFSPinRemovals.body env d) = 0 := by
  unfold ProcessIPFSPinRemovals.body ProcessIPFSPinRemovals.store
  try dsimp only
  repeat' split
  all_goals simp [acks, nacks]

/-- Every path of the key creation body acknowledges once and never rejects. -/
theorem key_creation_body_acks (env : Env) (d : Delivery) :
    acks (ProcessIPFSKeyCreation.body env d) = 1 ∧
      nacks (ProcessIPFSKeyCreation.body env d) = 0 := by
  unfold ProcessIPFSKeyCreation.body ProcessIPFSKeyCreation.create
  try dsimp only
  repeat' split
  all_goals simp [acks, nacks]

/-- Every path of the file add body acknowledges once and never rejects. -/
theorem files_body_acks (env : Env) (m : IpfsManager) (d : Delivery) :
    acks (ProccessIPFSFiles.body env m d).1 = 1 ∧
      nacks (ProccessIPFSFiles.body env m d).1 = 0 := by
  unfold ProccessIPFSFiles.body ProccessIPFSFiles.add ProccessIPFSFiles.ledger
    ProccessIPFSFiles.cleanup
  try dsimp only
  repeat' split
  all_goals simp [acks, nacks]

/-- Every path of the cluster pin body acknowledges once and never rejects. -/
theorem cluster_pins_body_acks (env : Env) (d : Delivery) :
    acks (ProcessIPFSClusterPins.body env d) = 1 ∧
      nacks (ProcessIPFSClusterPins.body env d) = 0 := by
  unfold ProcessIPFSClusterPins.body ProcessIPFSClusterPins.ledger
  try dsimp only
  repeat' split
  all_goals simp [acks, nacks]

/-- Every path of the IPNS body acknowledges once and never rejects. -/
theorem ipns_body_acks (env : Env) (d : Delivery) :
    acks (ProcessIPNSEntryCreationRequests.body env d) = 1 ∧
      nacks (ProcessIPNSEntryCreationRequests.body env d) = 0 := by
  unfold ProcessIPNSEntryCreationRequests.body ProcessIPNSEntryCreationRequests.publish
    ProcessIPNSEntryCreationRequests.record
  try dsimp only
  repeat' split
  all_goals simp [acks, nacks]

/-- The file add loop yields one list of calls per delivery, each acknowledging
once, whatever store client the loop starts from. -/
theorem files_loop_acks (envs : Delivery → Env) (msgs : List Delivery) :
    ∀ m : IpfsManager,
      (ProccessIPFSFiles.loop envs m msgs).length = msgs.length ∧
      ∀ t ∈ ProccessIPFSFiles.loop envs m msgs, acks t = 1 ∧ nacks t = 0 := by
  induction msgs with
  | nil => intro m; simp [ProccessIPFSFiles.loop]
  | cons d ds ih =>
    intro m
    have hb := files_body_acks (envs d) m d
    have hr := ih (ProccessIPFSFiles.body (envs d) m d).2
    refine ⟨by simp [ProccessIPFSFiles.loop, hr.1], ?_⟩
    intro t ht
    simp only [ProccessIPFSFiles.loop, List.mem_cons] at ht
    rcases ht with rfl | ht
    · exact hb
    · exact hr.2 t ht

/-- C1: in each of the key creation, pin, pin removal, file add, cluster pin and
IPNS consumers, the body run for a delivery calls `Ack` exactly once and never
calls `Nack`, for every body (decodable or not) and every outcome of the
collaborator calls; each consumer runs its body once per delivery. -/
theorem consumers_ack_exactly_once (envs : Delivery → Env) (msgs : List Delivery) :
    ((ProcessIPFSKeyCreation envs msgs).length = msgs.length ∧
      ∀ t ∈ ProcessIPFSKeyCreation envs msgs, acks t = 1 ∧ nacks t = 0) ∧
    ((ProccessIPFSPins envs msgs).length = msgs.length ∧
      ∀ t ∈ ProccessIPFSPins envs msgs, acks t = 1 ∧ nacks t = 0) ∧
    ((ProcessIPFSPinRemovals envs msgs).length = msgs.length ∧
      ∀ t ∈ ProcessIPFSPinRemovals envs msgs, acks t = 1 ∧ nacks t = 0) ∧
    ((ProccessIPFSFiles envs msgs).length = msgs.length ∧
      ∀ t ∈ ProccessIPFSFiles envs msgs, acks t = 1 ∧ nacks t = 0) ∧
    ((ProcessIPFSClusterPins envs msgs).length = msgs.length ∧
      ∀ t ∈ ProcessIPFSClusterPins envs msgs, acks t = 1 ∧ nacks t = 0) ∧
    ((ProcessIPNSEntryCreationRequests envs msgs).length = msgs.length ∧
      ∀ t ∈ ProcessIPNSEntryCreationRequests envs msgs, acks t = 1 ∧ nacks t = 0) := by
  refine ⟨⟨by simp [ProcessIPFSKeyCreation], ?_⟩, ⟨by simp [ProccessIPFSPins], ?_⟩,
    ⟨by simp [ProcessIPFSPinRemovals], ?_⟩, files_loop_acks envs msgs (some ""),
    ⟨by simp [ProcessIPFSClusterPins], ?_⟩,
    ⟨by simp [ProcessIPNSEntryCreationRequests], ?_⟩⟩
  · intro t ht
    simp only [ProcessIPFSKeyCreation, List.mem_map] at ht
    obtain ⟨d, -, rfl⟩ := ht
    exact key_creation_body_acks (envs d) d
  · intro t ht
    simp only [ProccessIPFSPins, List.mem_map] at ht
    obtain ⟨d, -, rfl⟩ := ht
    exact pins_body_acks (envs d) d
  · intro t ht
    simp only [ProcessIPFSPinRemovals, List.mem_map] at ht
    obtain ⟨d, -, rfl⟩ := ht
    exact pin_removals_body_acks (envs d) d
  · intro t ht
    simp only [ProcessIPFSClusterPins, List.mem_map] at ht
    obtain ⟨d, -, rfl⟩ := ht
    exact cluster_pins_body_acks (envs d) d
  · intro t ht
    simp only [ProcessIPNSEntryCreationRequests, List.mem_map] at ht
    obtain ⟨d, -, rfl⟩ := ht
    exact ipns_body_acks (envs d) d

/-- C2: a pin job for a non-public network to which the access control check
denies access (without error) is dropped: the body checks access, publishes the
notification and acknowledges; it makes no store-pin call, publishes no cluster
pin job and makes no upload ledger call. -/
theorem pin_denied_is_dropped (env : Env) (d : Delivery) (pin : IPFSPin)
    (hd : env.unmarshalPin d.Body = .ok pin) (hnet : pin.NetworkName ≠ "public")
    (hdenied : env.CheckIfUserHasAccessToNetwork pin.UserName pin.NetworkName = .ok false) :
    ProccessIPFSPins.body env d =
      [Event.CheckIfUserHasAccessToNetwork pin.UserName pin.NetworkName,
       Event.PublishEmail
        { Subject := env.consts.IpfsPrivateNetworkUnauthorizedSubject
          Content := "Unauthorized access to IPFS private network " ++ pin.NetworkName
          ContentType := ""
          UserNames := [pin.UserName]
          Emails := [] },
       Event.Ack false] ∧
    storeOpens (ProccessIPFSPins.body env d) = [] ∧
    storePins (ProccessIPFSPins.body env d) = [] ∧
    clusterPinJobs (ProccessIPFSPins.body env d) = [] ∧
    ledgerLookups (ProccessIPFSPins.body env d) = [] ∧
    ledgerInserts (ProccessIPFSPins.body env d) = [] ∧
    ledgerUpdates (ProccessIPFSPins.body env d) = [] ∧
    acks (ProccessIPFSPins.body env d) = 1 ∧
    nacks (ProccessIPFSPins.body env d) = 0 := by
  have ht : ProccessIPFSPins.body env d =
      [Event.CheckIfUserHasAccessToNetwork pin.UserName pin.NetworkName,
       Event.PublishEmail
        { Subject := env.consts.IpfsPrivateNetworkUnauthorizedSubject
          Content := "Unauthorized access to IPFS private network " ++ pin.NetworkName
          ContentType := ""
          UserNames := [pin.UserName]
          Emails := [] },
       Event.Ack false] := by
    simp [ProccessIPFSPins.body, hd, hnet, hdenied]
  rw [ht]
  simp [storeOpens, storePins, clusterPinJobs, ledgerLookups, ledgerInserts, ledgerUpdates,
    acks, nacks]

/-- C2 at the sample job sent to the private network `net1` with access denied. -/
theorem pin_denied_is_dropped_witness :
    deniedEnv.unmarshalPin sampleDelivery.Body = .ok privatePin ∧
    privatePin.NetworkName ≠ "public" ∧
    storePins (ProccessIPFSPins.body deniedEnv sampleDelivery) = [] ∧
    clusterPinJobs (ProccessIPFSPins.body deniedEnv sampleDelivery) = [] ∧
    ledgerLookups (ProccessIPFSPins.body deniedEnv sampleDelivery) = [] ∧
    acks (ProccessIPFSPins.body deniedEnv sampleDelivery) = 1 :=
  have h := pin_denied_is_dropped deniedEnv sampleDelivery privatePin rfl (by decide) rfl
  ⟨rfl, by decide, h.2.2.1, h.2.2.2.1, h.2.2.2.2.1, h.2.2.2.2.2.2.2.1⟩

/-- C3: for a pin job on the public network, when the store connection, the pin,
the publish and the ledger calls succeed and no upload record exists for the
hash: no access check and no endpoint lookup is made, the store is opened on the
default (empty) endpoint, the hash is pinned once, one cluster pin job with the
job's hash, network, user and hold time is published, and one upload record of
kind "pin" is inserted. -/
theorem pin_public_success (env : Env) (d : Delivery) (pin : IPFSPin)
    (hd : env.unmarshalPin d.Body = .ok pin) (hnet : pin.NetworkName = "public")
    (hinit : env.rtfsInitialize "" "" = none)
    (hpin : env.Pin (some "") pin.CID = none)
    (_hpub : env.PublishClusterPin
      { CID := pin.CID, NetworkName := pin.NetworkName, UserName := pin.UserName,
        HoldTimeInMonths := pin.HoldTimeInMonths, CreditCost := 0 } = none)
    (hfind : env.FindUploadByHashAndNetwork pin.CID pin.NetworkName =
      some GoError.ErrRecordNotFound)
    (hnew : env.NewUpload pin.CID "pin" pin.NetworkName pin.UserName pin.HoldTimeInMonths
      = none) :
    ProccessIPFSPins.body env d =
      [Event.rtfsInitialize "" "",
       Event.Pin (some "") pin.CID,
       Event.PublishClusterPin
        { CID := pin.CID, NetworkName := pin.NetworkName, UserName := pin.UserName,
          HoldTimeInMonths := pin.HoldTimeInMonths, CreditCost := 0 },
       Event.FindUploadByHashAndNetwork pin.CID pin.NetworkName,
       Event.NewUpload pin.CID "pin" pin.NetworkName pin.UserName pin.HoldTimeInMonths,
       Event.Ack false] ∧
    accessChecks (ProccessIPFSPins.body env d) = [] ∧
    endpointLookups (ProccessIPFSPins.body env d) = [] ∧
    storeOpens (ProccessIPFSPins.body env d) = [""] ∧
    storePins (ProccessIPFSPins.body env d) = [pin.CID] ∧
    (∃ msg : IPFSClusterPin, clusterPinJobs (ProccessIPFSPins.body env d) = [msg] ∧
      msg.CID = pin.CID ∧ msg.NetworkName = pin.NetworkName ∧ msg.UserName = pin.UserName ∧
      msg.HoldTimeInMonths = pin.HoldTimeInMonths) ∧
    ledgerInserts (ProccessIPFSPins.body env d) =
      [(pin.CID, "pin", pin.NetworkName, pin.UserName, pin.HoldTimeInMonths)] ∧
    ledgerUpdates (ProccessIPFSPins.body env d) = [] := by
  have ht : ProccessIPFSPins.body env d =
      [Event.rtfsInitialize "" "",
       Event.Pin (some "") pin.CID,
       Event.PublishClusterPin
        { CID := pin.CID, NetworkName := pin.NetworkName, UserName := pin.UserName,
          HoldTimeInMonths := pin.HoldTimeInMonths, CreditCost := 0 },
       Event.FindUploadByHashAndNetwork pin.CID pin.NetworkName,
       Event.NewUpload pin.CID "pin" pin.NetworkName pin.UserName pin.HoldTimeInMonths,
       Event.Ack false] := by
    simp only [ProccessIPFSPins.body, hd, hnet, ProccessIPFSPins.store, hinit]
    rw [hnet] at hfind hnew
    simp [hpin, ProccessIPFSPins.ledger, hnet, hfind, hnew]
  rw [ht]
  simp [accessChecks, endpointLookups, storeOpens, storePins, clusterPinJobs, ledgerInserts,
    ledgerUpdates]

/-- C3 at the scenario of the specification: the pin job for `Qm123` on the
public network by `alice` for three months. -/
theorem pin_public_success_witness :
    sampleEnv.unmarshalPin sampleDelivery.Body = .ok samplePin ∧
    samplePin.NetworkName = "public" ∧
    storePins (ProccessIPFSPins.body sampleEnv sampleDelivery) = ["Qm123"] ∧
    ledgerInserts (ProccessIPFSPins.body sampleEnv sampleDelivery) =
      [("Qm123", "pin", "public", "alice", 3)] :=
  have h := pin_public_success sampleEnv sampleDelivery samplePin rfl rfl rfl rfl rfl rfl rfl
  ⟨rfl, rfl, h.2.2.2.2.1, h.2.2.2.2.2.2.1⟩

/-- C4: in the pin body, once the store-pin call has been made and has
succeeded, the outcome of publishing the cluster pin job has no influence on the
calls made; the ledger is looked up once by (hash, network); when the record is
not found there is one insert of kind "pin" and no update, when it is found one
update and no insert, and on any other lookup error neither; no unpin is issued
and the delivery is acknowledged once. -/
theorem pin_ledger_after_pin (env : Env) (d : Delivery) (pin : IPFSPin) (m : IpfsManager)
    (hd : env.unmarshalPin d.Body = .ok pin)
    (hcall : Event.Pin m pin.CID ∈ ProccessIPFSPins.body env d)
    (hok : env.Pin m pin.CID = none) :
    (∀ r : IPFSClusterPin → Option GoError,
      ProccessIPFSPins.body { env with PublishClusterPin := r } d =
        ProccessIPFSPins.body env d) ∧
    ledgerLookups (ProccessIPFSPins.body env d) = [(pin.CID, pin.NetworkName)] ∧
    (env.FindUploadByHashAndNetwork pin.CID pin.NetworkName = some GoError.ErrRecordNotFound →
      ledgerInserts (ProccessIPFSPins.body env d) =
        [(pin.CID, "pin", pin.NetworkName, pin.UserName, pin.HoldTimeInMonths)] ∧
      ledgerUpdates (ProccessIPFSPins.body env d) = []) ∧
    (env.FindUploadByHashAndNetwork pin.CID pin.NetworkName = none →
      ledgerUpdates (ProccessIPFSPins.body env d) =
        [(pin.HoldTimeInMonths, pin.UserName, pin.CID, pin.NetworkName)] ∧
      ledgerInserts (ProccessIPFSPins.body env d) = []) ∧
    (∀ msg : String,
      env.FindUploadByHashAndNetwork pin.CID pin.NetworkName = some (GoError.other msg) →
      ledgerInserts (ProccessIPFSPins.body env d) = [] ∧
      ledgerUpdates (ProccessIPFSPins.body env d) = []) ∧
    storeUnpins (ProccessIPFSPins.body env d) = [] ∧
    acks (ProccessIPFSPins.body env d) = 1 ∧
    nacks (ProccessIPFSPins.body env d) = 0 := by
  refine ⟨fun _ => rfl, ?_⟩
  simp only [ProccessIPFSPins.body, hd, ProccessIPFSPins.store, ProccessIPFSPins.ledger]
    at hcall ⊢
  repeat' split
  all_goals
    simp_all [ledgerLookups, ledgerInserts, ledgerUpdates, storeUnpins, acks, nacks]

/-- C4 at the sample public pin job, where the pin is made through the default
store client and succeeds. -/
theorem pin_ledger_after_pin_witness :
    sampleEnv.unmarshalPin sampleDelivery.Body = .ok samplePin ∧
    Event.Pin (some "") samplePin.CID ∈ ProccessIPFSPins.body sampleEnv sampleDelivery ∧
    sampleEnv.Pin (some "") samplePin.CID = none ∧
    ledgerLookups (ProccessIPFSPins.body sampleEnv sampleDelivery) = [("Qm123", "public")] ∧
    storeUnpins (ProccessIPFSPins.body sampleEnv sampleDelivery) = [] :=
  have hcall : Event.Pin (some "") samplePin.CID ∈
      ProccessIPFSPins.body sampleEnv sampleDelivery := by decide
  have h := pin_ledger_after_pin sampleEnv sampleDelivery samplePin (some "") rfl hcall rfl
  ⟨rfl, hcall, rfl, h.2.1, h.2.2.2.2.2.1⟩

/-- C8: a cluster pin job for a non-public network gets exactly one credit
refund, for the job's user and credit cost, and the acknowledgement; the hash is
not decoded, nothing is pinned to the cluster and the ledger is not touched. -/
theorem cluster_pin_private_refunds (env : Env) (d : Delivery) (clusterAdd : IPFSClusterPin)
    (hd : env.unmarshalClusterPin d.Body = .ok clusterAdd)
    (hnet : clusterAdd.NetworkName ≠ "public") :
    ProcessIPFSClusterPins.body env d =
      [Event.refundCredits clusterAdd.UserName "pin" clusterAdd.CreditCost, Event.Ack false] ∧
    refundCalls (ProcessIPFSClusterPins.body env d) =
      [(clusterAdd.UserName, "pin", clusterAdd.CreditCost)] ∧
    decodeCalls (ProcessIPFSClusterPins.body env d) = [] ∧
    clusterPins (ProcessIPFSClusterPins.body env d) = [] ∧
    ledgerLookups (ProcessIPFSClusterPins.body env d) = [] ∧
    ledgerInserts (ProcessIPFSClusterPins.body env d) = [] ∧
    ledgerUpdates (ProcessIPFSClusterPins.body env d) = [] ∧
    acks (ProcessIPFSClusterPins.body env d) = 1 ∧
    nacks (ProcessIPFSClusterPins.body env d) = 0 := by
  have ht : ProcessIPFSClusterPins.body env d =
      [Event.refundCredits clusterAdd.UserName "pin" clusterAdd.CreditCost,
       Event.Ack false] := by
    simp [ProcessIPFSClusterPins.body, hd, hnet]
  rw [ht]
  simp [refundCalls, decodeCalls, clusterPins, ledgerLookups, ledgerInserts, ledgerUpdates,
    acks, nacks]

/-- C8 at the sample cluster pin job sent to the private network `net1`. -/
theorem cluster_pin_private_refunds_witness :
    privateClusterEnv.unmarshalClusterPin sampleDelivery.Body = .ok privateClusterPin ∧
    privateClusterPin.NetworkName ≠ "public" ∧
    refundCalls (ProcessIPFSClusterPins.body privateClusterEnv sampleDelivery) =
      [("alice", "pin", 10)] ∧
    clusterPins (ProcessIPFSClusterPins.body privateClusterEnv sampleDelivery) = [] :=
  have h := cluster_pin_private_refunds privateClusterEnv sampleDelivery privateClusterPin rfl
    (by decide)
  ⟨rfl, by decide, h.2.1, h.2.2.2.1⟩

/-- C9: for a cluster pin job on the public network: when decoding the hash
fails there is one refund (job's user and credit cost), no cluster pin and no
ledger call; when the cluster pin fails there is one refund and no ledger call;
when both succeed no refund is issued whatever the ledger calls return, the
ledger is looked up by (hash, network), and a record of kind "pin-cluster" is
inserted when none is found, or the record is updated when one is found. -/
theorem cluster_pin_public (env : Env) (d : Delivery) (clusterAdd : IPFSClusterPin)
    (hd : env.unmarshalClusterPin d.Body = .ok clusterAdd)
    (hnet : clusterAdd.NetworkName = "public") :
    ((∃ e, env.DecodeHashString clusterAdd.CID = .error e) →
      refundCalls (ProcessIPFSClusterPins.body env d) =
        [(clusterAdd.UserName, "pin", clusterAdd.CreditCost)] ∧
      clusterPins (ProcessIPFSClusterPins.body env d) = [] ∧
      ledgerLookups (ProcessIPFSClusterPins.body env d) = [] ∧
      ledgerInserts (ProcessIPFSClusterPins.body env d) = [] ∧
      ledgerUpdates (ProcessIPFSClusterPins.body env d) = []) ∧
    (∀ encodedCid e, env.DecodeHashString clusterAdd.CID = .ok encodedCid →
      env.ClusterPin encodedCid = some e →
      refundCalls (ProcessIPFSClusterPins.body env d) =
        [(clusterAdd.UserName, "pin", clusterAdd.CreditCost)] ∧
      clusterPins (ProcessIPFSClusterPins.body env d) = [encodedCid] ∧
      ledgerLookups (ProcessIPFSClusterPins.body env d) = [] ∧
      ledgerInserts (ProcessIPFSClusterPins.body env d) = [] ∧
      ledgerUpdates (ProcessIPFSClusterPins.body env d) = []) ∧
    (∀ encodedCid, env.DecodeHashString clusterAdd.CID = .ok encodedCid →
      env.ClusterPin encodedCid = none →
      refundCalls (ProcessIPFSClusterPins.body env d) = [] ∧
      clusterPins (ProcessIPFSClusterPins.body env d) = [encodedCid] ∧
      ledgerLookups (ProcessIPFSClusterPins.body env d) =
        [(clusterAdd.CID, clusterAdd.NetworkName)] ∧
      (env.FindUploadByHashAndNetwork clusterAdd.CID clusterAdd.NetworkName =
          some GoError.ErrRecordNotFound →
        ledgerInserts (ProcessIPFSClusterPins.body env d) =
          [(clusterAdd.CID, "pin-cluster", clusterAdd.NetworkName, clusterAdd.UserName,
            clusterAdd.HoldTimeInMonths)] ∧
        ledgerUpdates (ProcessIPFSClusterPins.body env d) = []) ∧
      (env.FindUploadByHashAndNetwork clusterAdd.CID clusterAdd.NetworkName = none →
        ledgerUpdates (ProcessIPFSClusterPins.body env d) =
          [(clusterAdd.HoldTimeInMonths, clusterAdd.UserName, clusterAdd.CID,
            clusterAdd.NetworkName)] ∧
        ledgerInserts (ProcessIPFSClusterPins.body env d) = [])) ∧
    acks (ProcessIPFSClusterPins.body env d) = 1 := by
  refine ⟨?_, ?_, ?_, (cluster_pins_body_acks env d).1⟩
  · rintro ⟨e, hdec⟩
    simp [ProcessIPFSClusterPins.body, hd, hnet, hdec, refundCalls, clusterPins,
      ledgerLookups, ledgerInserts, ledgerUpdates]
  · intro encodedCid e hdec hpin
    simp [ProcessIPFSClusterPins.body, hd, hnet, hdec, hpin, refundCalls, clusterPins,
      ledgerLookups, ledgerInserts, ledgerUpdates]
  · intro encodedCid hdec hpin
    simp only [ProcessIPFSClusterPins.body, hd, hnet, hdec, hpin,
      ProcessIPFSClusterPins.ledger]
    repeat' split
    all_goals
      simp_all [refundCalls, clusterPins, ledgerLookups, ledgerInserts, ledgerUpdates]

/-- C9 at the sample public cluster pin job, where decoding and pinning succeed
and no record exists yet. -/
theorem cluster_pin_public_witness :
    sampleEnv.unmarshalClusterPin sampleDelivery.Body = .ok sampleClusterPin ∧
    sampleClusterPin.NetworkName = "public" ∧
    refundCalls (ProcessIPFSClusterPins.body sampleEnv sampleDelivery) = [] ∧
    ledgerInserts (ProcessIPFSClusterPins.body sampleEnv sampleDelivery) =
      [("Qm123", "pin-cluster", "public", "alice", 3)] :=
  have h := cluster_pin_public sampleEnv sampleDelivery sampleClusterPin rfl rfl
  have h3 := h.2.2.1 "Qm123" rfl rfl
  ⟨rfl, rfl, h3.1, (h3.2.2.2.1 rfl).1⟩

/-- Without a refund call the balances stay as they were. -/
theorem creditsAfter_of_no_refund (bal : String → Credits) (t : List Event)
    (h : refundCalls t = []) : creditsAfter bal t = bal := by
  induction t generalizing bal with
  | nil => rfl
  | cons e t ih =>
    have hstep : refundCalls t = [] ∧ creditsAfter bal (e :: t) = creditsAfter bal t := by
      cases e <;>
        first
        | exact ⟨by simpa [refundCalls, List.filterMap_cons] using h, rfl⟩
        | simp [refundCalls, List.filterMap_cons] at h
    rw [hstep.2]
    exact ih bal hstep.1

/-- The pin body makes no refund call. -/
theorem pins_body_no_refund (env : Env) (d : Delivery) :
    refundCalls (ProccessIPFSPins.body env d) = [] := by
  unfold ProccessIPFSPins.body ProccessIPFSPins.store ProccessIPFSPins.ledger
  try dsimp only
  repeat' split
  all_goals simp [refundCalls]

/-- The file add body makes no refund call. -/
theorem files_body_no_refund (env : Env) (m : IpfsManager) (d : Delivery) :
    refundCalls (ProccessIPFSFiles.body env m d).1 = [] := by
  unfold ProccessIPFSFiles.body ProccessIPFSFiles.add ProccessIPFSFiles.ledger
    ProccessIPFSFiles.cleanup
  try dsimp only
  repeat' split
  all_goals simp [refundCalls]

/-- C10: the pin body and the file add body never call the credit refund, for
every delivery, every store client in use and every outcome of the access check,
endpoint lookup, store, staging, publish and ledger calls; every user's credit
balance after the body is the balance before it. -/
theorem pin_and_file_never_refund (env : Env) (m : IpfsManager) (d : Delivery)
    (bal : String → Credits) :
    refundCalls (ProccessIPFSPins.body env d) = [] ∧
    creditsAfter bal (ProccessIPFSPins.body env d) = bal ∧
    refundCalls (ProccessIPFSFiles.body env m d).1 = [] ∧
    creditsAfter bal (ProccessIPFSFiles.body env m d).1 = bal :=
  ⟨pins_body_no_refund env d,
   creditsAfter_of_no_refund bal _ (pins_body_no_refund env d),
   files_body_no_refund env m d,
   creditsAfter_of_no_refund bal _ (files_body_no_refund env m d)⟩

/-! ### The database queues -/

/-- `db.Last` reads the last row of a table that has one, whatever the record
passed to it. -/
theorem last_of_getLast (db : DB) (u lastUpload : Upload) (h : db.getLast? = some u) :
    DB.Last db lastUpload = u := by
  simp [DB.Last, h]

/-- When the last row of the table carries the hash, it is the last record of
that hash. -/
theorem last_record_of_hash (db : DB) (u : Upload) (hash : String)
    (h : db.getLast? = some u) (hh : u.Hash = hash) :
    (db.filter (fun r => r.Hash = hash)).getLast? = some u := by
  obtain ⟨ys, rfl⟩ := List.getLast?_eq_some_iff.mp h
  simp [List.filter_append, hh]

set_option maxRecDepth 4000 in
/-- The sample dates: 3 and 12 months after 26 June 2018, 08:00 UTC, are
26 September 2018 and 26 June 2019, 08:00 UTC. -/
theorem goAddDate_sample :
    goAddDate 1530000000 3 = 1537948800 ∧ goAddDate 1530000000 12 = 1561536000 := by
  decide

set_option maxRecDepth 4000 in
/-- The month arithmetic is that of Go: one month after 31 January 2018, 16:00
UTC, is 3 March 2018, 16:00 UTC, and the month count `2 ^ 63 - 1` wraps around
to a date before the sample time. -/
theorem goAddDate_wraps :
    goAddDate 1517414400 1 = 1520092800 ∧
    goAddDate 1530000000 (2 ^ 63 - 1) = 1527428736 := by
  decide

/-- The pin branch on a decodable job: a submission whose date is not later
than the stored one is skipped, any other is appended to the table. -/
theorem pin_add_step (env : ConsumeEnv) (db : DB) (d : Delivery) (b : String)
    (j : DatabasePinAdd) (hb : d.Body = some b) (hj : env.unmarshalDatabasePinAdd b = .ok j)
    (hr : -(2 ^ 63) ≤ j.HoldTimeInMonths ∧ j.HoldTimeInMonths < 2 ^ 63) :
    ConsumeMessage.DatabasePinAddQueue env db d =
      if (DB.Last db (Upload.withHash j.Hash)).GarbageCollectDate ≥
          env.AddDate env.Now j.HoldTimeInMonths then ([Event.Ack false], db)
      else
        ([Event.Ack false],
         DB.Create db
          { Hash := j.Hash
            HoldTimeInMonths := j.HoldTimeInMonths
            Type_ := "pin"
            UploadAddress := j.UploaderAddress
            UploaderAddresses :=
              (DB.Last db (Upload.withHash j.Hash)).UploaderAddresses ++ [j.UploaderAddress]
            GarbageCollectDate := env.AddDate env.Now j.HoldTimeInMonths }) := by
  have ha : AtoiSprint j.HoldTimeInMonths = .ok j.HoldTimeInMonths := by
    unfold AtoiSprint
    rw [if_pos hr]
  simp only [ConsumeMessage.DatabasePinAddQueue, hb, hj, ha]

/-- The file branch on a decodable job: a submission whose date is not later
than the stored one is skipped before the cluster goroutine is started, any
other is appended to the table and handed to the cluster. -/
theorem file_add_step (env : ConsumeEnv) (db : DB) (d : Delivery) (b : String)
    (j : DatabaseFileAdd) (hb : d.Body = some b) (hj : env.unmarshalDatabaseFileAdd b = .ok j)
    (hr : -(2 ^ 63) ≤ j.HoldTimeInMonths ∧ j.HoldTimeInMonths < 2 ^ 63) :
    ConsumeMessage.DatabaseFileAddQueue env db d =
      if (DB.Last db (Upload.withHash j.Hash)).GarbageCollectDate ≥
          env.AddDate env.Now j.HoldTimeInMonths then ([Event.Ack false], db)
      else
        (ConsumeMessage.clusterPin env j.Hash ++ [Event.Ack false],
         DB.Create db
          { Hash := j.Hash
            HoldTimeInMonths := j.HoldTimeInMonths
            Type_ := "file"
            UploadAddress := j.UploaderAddress
            UploaderAddresses :=
              (DB.Last db (Upload.withHash j.Hash)).UploaderAddresses ++ [j.UploaderAddress]
            GarbageCollectDate := env.AddDate env.Now j.HoldTimeInMonths }) := by
  have ha : AtoiSprint j.HoldTimeInMonths = .ok j.HoldTimeInMonths := by
    unfold AtoiSprint
    rw [if_pos hr]
  simp only [ConsumeMessage.DatabaseFileAddQueue, hb, hj, ha]

/-- C5 fails on the code.  The table holds one record, for the hash `QmOther`,
kept for 12 months from the sample time; the hash `Qm123` is then submitted at
that time for 3 and for 12 months.  `db.Last` reads the record of `QmOther`,
whose date is not earlier than either computed date, so in either order both
submissions are skipped: the table is left as it was and holds no record for
`Qm123`.  On the empty table the same submissions leave, in either order, a last
record for `Qm123` dated 12 months from the sample time. -/
theorem pin_add_blocked_by_other_hash :
    sampleConsumeEnv.unmarshalDatabasePinAdd "A3" =
      .ok { Hash := "Qm123", HoldTimeInMonths := 3, UploaderAddress := "0xA" } ∧
    sampleConsumeEnv.unmarshalDatabasePinAdd "A12" =
      .ok { Hash := "Qm123", HoldTimeInMonths := 12, UploaderAddress := "0xA" } ∧
    ConsumeMessage.run ConsumeMessage.DatabasePinAddQueue sampleConsumeEnv sampleDBOther
      [deliveryOf "A3", deliveryOf "A12"] = sampleDBOther ∧
    ConsumeMessage.run ConsumeMessage.DatabasePinAddQueue sampleConsumeEnv sampleDBOther
      [deliveryOf "A12", deliveryOf "A3"] = sampleDBOther ∧
    sampleDBOther.filter (fun r => r.Hash = "Qm123") = [] ∧
    (((ConsumeMessage.run ConsumeMessage.DatabasePinAddQueue sampleConsumeEnv []
        [deliveryOf "A3", deliveryOf "A12"]).filter (fun r => r.Hash = "Qm123")).getLast?.map
      (fun r => r.GarbageCollectDate)) = some (goAddDate 1530000000 12) ∧
    (((ConsumeMessage.run ConsumeMessage.DatabasePinAddQueue sampleConsumeEnv []
        [deliveryOf "A12", deliveryOf "A3"]).filter (fun r => r.Hash = "Qm123")).getLast?.map
      (fun r => r.GarbageCollectDate)) = some (goAddDate 1530000000 12) :=
  ⟨rfl, rfl, by decide, by decide, by decide, by decide, by decide⟩

/-- C6 (amended): the stored record of the submission's hash is the last row of
the table and the computed date is not later than its date.  Both database
consumers then skip the submission: the delivery is acknowledged, the table is
left as it was, so the stored record stays the last record of the hash, and
nothing else is called; in particular the file consumer does not hand such a
submission to the cluster. -/
theorem duplicate_submission_skipped (env : ConsumeEnv) (dbp dbf : DB) (dp df : Delivery)
    (bp bf : String) (jp : DatabasePinAdd) (jf : DatabaseFileAdd) (up uf : Upload)
    (hbp : dp.Body = some bp) (hjp : env.unmarshalDatabasePinAdd bp = .ok jp)
    (hrp : -(2 ^ 63) ≤ jp.HoldTimeInMonths ∧ jp.HoldTimeInMonths < 2 ^ 63)
    (hbf : df.Body = some bf) (hjf : env.unmarshalDatabaseFileAdd bf = .ok jf)
    (hrf : -(2 ^ 63) ≤ jf.HoldTimeInMonths ∧ jf.HoldTimeInMonths < 2 ^ 63)
    (hlastp : dbp.getLast? = some up) (hhashp : up.Hash = jp.Hash)
    (hdupp : up.GarbageCollectDate ≥ env.AddDate env.Now jp.HoldTimeInMonths)
    (hlastf : dbf.getLast? = some uf) (hhashf : uf.Hash = jf.Hash)
    (hdupf : uf.GarbageCollectDate ≥ env.AddDate env.Now jf.HoldTimeInMonths) :
    (ConsumeMessage.DatabasePinAddQueue env dbp dp = ([Event.Ack false], dbp) ∧
      ((ConsumeMessage.DatabasePinAddQueue env dbp dp).2.filter
        (fun r => r.Hash = jp.Hash)).getLast? = some up) ∧
    (ConsumeMessage.DatabaseFileAddQueue env dbf df = ([Event.Ack false], dbf) ∧
      ((ConsumeMessage.DatabaseFileAddQueue env dbf df).2.filter
        (fun r => r.Hash = jf.Hash)).getLast? = some uf ∧
      decodeCalls (ConsumeMessage.DatabaseFileAddQueue env dbf df).1 = [] ∧
      clusterPins (ConsumeMessage.DatabaseFileAddQueue env dbf df).1 = []) := by
  have hp := pin_add_step env dbp dp bp jp hbp hjp hrp
  have hf := file_add_step env dbf df bf jf hbf hjf hrf
  rw [last_of_getLast dbp up _ hlastp, if_pos hdupp] at hp
  rw [last_of_getLast dbf uf _ hlastf, if_pos hdupf] at hf
  rw [hp, hf]
  refine ⟨⟨rfl, last_record_of_hash dbp up _ hlastp hhashp⟩,
    rfl, last_record_of_hash dbf uf _ hlastf hhashf, ?_, ?_⟩
  · simp [decodeCalls]
  · simp [clusterPins]

/-- C6 (amended) at the hash `Qm123`, recorded for 12 months and submitted again
for 12 months at the same time. -/
theorem duplicate_submission_skipped_witness :
    sampleDB12.getLast? = some
      { Hash := "Qm123", HoldTimeInMonths := 12, Type_ := "pin", UploadAddress := "0xA",
        UploaderAddresses := ["0xA"], GarbageCollectDate := goAddDate 1530000000 12 } ∧
    goAddDate 1530000000 12 ≥ sampleConsumeEnv.AddDate sampleConsumeEnv.Now 12 ∧
    ConsumeMessage.DatabasePinAddQueue sampleConsumeEnv sampleDB12 (deliveryOf "A12") =
      ([Event.Ack false], sampleDB12) ∧
    ConsumeMessage.DatabaseFileAddQueue sampleConsumeEnv sampleDB12 (deliveryOf "A12") =
      ([Event.Ack false], sampleDB12) :=
  have hd : goAddDate 1530000000 12 ≥ sampleConsumeEnv.AddDate sampleConsumeEnv.Now 12 :=
    le_refl _
  have h := duplicate_submission_skipped sampleConsumeEnv sampleDB12 sampleDB12
    (deliveryOf "A12") (deliveryOf "A12") "A12" "A12"
    { Hash := "Qm123", HoldTimeInMonths := 12, UploaderAddress := "0xA" }
    { Hash := "Qm123", HoldTimeInMonths := 12, UploaderAddress := "0xA" }
    { Hash := "Qm123", HoldTimeInMonths := 12, Type_ := "pin", UploadAddress := "0xA",
      UploaderAddresses := ["0xA"], GarbageCollectDate := goAddDate 1530000000 12 }
    { Hash := "Qm123", HoldTimeInMonths := 12, Type_ := "pin", UploadAddress := "0xA",
      UploaderAddresses := ["0xA"], GarbageCollectDate := goAddDate 1530000000 12 }
    rfl rfl (by decide) rfl rfl (by decide) rfl rfl hd rfl rfl hd
  ⟨rfl, hd, h.1.1, h.2.1⟩

set_option maxRecDepth 4000 in
/-- C6 as stated fails in the file consumer: the table holds one record, `Qm123`
kept for 12 months, and `Qm123` is submitted again for 3 months; the computed
date is not later than the stored one, the table is left as it was, and the only
call is the acknowledgement: no hash is decoded and nothing is pinned to the
cluster.  A submission on the empty table does reach the cluster. -/
theorem duplicate_file_not_pinned :
    ((sampleDB12.filter (fun r => r.Hash = "Qm123")).getLast?.map
      (fun r => r.GarbageCollectDate)) = some (goAddDate 1530000000 12) ∧
    goAddDate 1530000000 12 = 1561536000 ∧
    sampleConsumeEnv.AddDate sampleConsumeEnv.Now 3 = 1537948800 ∧
    (ConsumeMessage.DatabaseFileAddQueue sampleConsumeEnv sampleDB12 (deliveryOf "A3")).2 =
      sampleDB12 ∧
    (ConsumeMessage.DatabaseFileAddQueue sampleConsumeEnv sampleDB12 (deliveryOf "A3")).1 =
      [Event.Ack false] ∧
    decodeCalls
      (ConsumeMessage.DatabaseFileAddQueue sampleConsumeEnv sampleDB12 (deliveryOf "A3")).1 =
      [] ∧
    clusterPins
      (ConsumeMessage.DatabaseFileAddQueue sampleConsumeEnv sampleDB12 (deliveryOf "A3")).1 =
      [] ∧
    clusterPins
      (ConsumeMessage.DatabaseFileAddQueue sampleConsumeEnv [] (deliveryOf "A3")).1 =
      ["Qm123"] := by
  decide

/-- C7 (amended): the prior record of the submission's hash is the last row of
the table and the computed date is later than its date.  Both database consumers
then record the submission in a new row for the hash, appended to the table,
whose uploader list is the uploader list of the prior record with the submitter
appended at the end; so it contains every uploader of the prior record and the
submitter. -/
theorem recorded_submission_appends_uploader (env : ConsumeEnv) (dbp dbf : DB)
    (dp df : Delivery) (bp bf : String) (jp : DatabasePinAdd) (jf : DatabaseFileAdd)
    (up uf : Upload)
    (hbp : dp.Body = some bp) (hjp : env.unmarshalDatabasePinAdd bp = .ok jp)
    (hrp : -(2 ^ 63) ≤ jp.HoldTimeInMonths ∧ jp.HoldTimeInMonths < 2 ^ 63)
    (hbf : df.Body = some bf) (hjf : env.unmarshalDatabaseFileAdd bf = .ok jf)
    (hrf : -(2 ^ 63) ≤ jf.HoldTimeInMonths ∧ jf.HoldTimeInMonths < 2 ^ 63)
    (hlastp : dbp.getLast? = some up) (hhashp : up.Hash = jp.Hash)
    (hnewp : up.GarbageCollectDate < env.AddDate env.Now jp.HoldTimeInMonths)
    (hlastf : dbf.getLast? = some uf) (hhashf : uf.Hash = jf.Hash)
    (hnewf : uf.GarbageCollectDate < env.AddDate env.Now jf.HoldTimeInMonths) :
    ((dbp.filter (fun r => r.Hash = jp.Hash)).getLast? = some up ∧
      ∃ u : Upload, (ConsumeMessage.DatabasePinAddQueue env dbp dp).2 = dbp ++ [u] ∧
        u.Hash = jp.Hash ∧
        u.UploaderAddresses = up.UploaderAddresses ++ [jp.UploaderAddress] ∧
        (∀ a ∈ up.UploaderAddresses, a ∈ u.UploaderAddresses) ∧
        jp.UploaderAddress ∈ u.UploaderAddresses) ∧
    ((dbf.filter (fun r => r.Hash = jf.Hash)).getLast? = some uf ∧
      ∃ u : Upload, (ConsumeMessage.DatabaseFileAddQueue env dbf df).2 = dbf ++ [u] ∧
        u.Hash = jf.Hash ∧
        u.UploaderAddresses = uf.UploaderAddresses ++ [jf.UploaderAddress] ∧
        (∀ a ∈ uf.UploaderAddresses, a ∈ u.UploaderAddresses) ∧
        jf.UploaderAddress ∈ u.UploaderAddresses) := by
  have hp := pin_add_step env dbp dp bp jp hbp hjp hrp
  have hf := file_add_step env dbf df bf jf hbf hjf hrf
  rw [last_of_getLast dbp up _ hlastp, if_neg (not_le.mpr hnewp)] at hp
  rw [last_of_getLast dbf uf _ hlastf, if_neg (not_le.mpr hnewf)] at hf
  rw [hp, hf]
  refine ⟨⟨last_record_of_hash dbp up _ hlastp hhashp, _, rfl, rfl, rfl, ?_, ?_⟩,
    ⟨last_record_of_hash dbf uf _ hlastf hhashf, _, rfl, rfl, rfl, ?_, ?_⟩⟩
  · intro a ha
    exact List.mem_append_left _ ha
  · simp
  · intro a ha
    exact List.mem_append_left _ ha
  · simp

/-- C7 (amended) at the hash `Qm123`, recorded for 3 months by `0xA` and
submitted for 12 months at the same time, by `0xB` to the pin consumer and by
`0xA` to the file consumer. -/
theorem recorded_submission_appends_uploader_witness :
    sampleDB3.getLast? = some
      { Hash := "Qm123", HoldTimeInMonths := 3, Type_ := "pin", UploadAddress := "0xA",
        UploaderAddresses := ["0xA"], GarbageCollectDate := goAddDate 1530000000 3 } ∧
    goAddDate 1530000000 3 < sampleConsumeEnv.AddDate sampleConsumeEnv.Now 12 ∧
    (∃ u : Upload,
      (ConsumeMessage.DatabasePinAddQueue sampleConsumeEnv sampleDB3 (deliveryOf "B12")).2 =
        sampleDB3 ++ [u] ∧
      u.UploaderAddresses = ["0xA", "0xB"]) :=
  have hn : goAddDate 1530000000 3 < sampleConsumeEnv.AddDate sampleConsumeEnv.Now 12 := by
    show goAddDate 1530000000 3 < goAddDate 1530000000 12
    rw [goAddDate_sample.1, goAddDate_sample.2]
    decide
  have h := recorded_submission_appends_uploader sampleConsumeEnv sampleDB3 sampleDB3
    (deliveryOf "B12") (deliveryOf "A12") "B12" "A12"
    { Hash := "Qm123", HoldTimeInMonths := 12, UploaderAddress := "0xB" }
    { Hash := "Qm123", HoldTimeInMonths := 12, UploaderAddress := "0xA" }
    { Hash := "Qm123", HoldTimeInMonths := 3, Type_ := "pin", UploadAddress := "0xA",
      UploaderAddresses := ["0xA"], GarbageCollectDate := goAddDate 1530000000 3 }
    { Hash := "Qm123", HoldTimeInMonths := 3, Type_ := "pin", UploadAddress := "0xA",
      UploaderAddresses := ["0xA"], GarbageCollectDate := goAddDate 1530000000 3 }
    rfl rfl (by decide) rfl rfl (by decide) rfl rfl hn rfl rfl hn
  ⟨rfl, hn, h.1.2.elim (fun u hu => ⟨u, hu.1, hu.2.2.1⟩)⟩

/-- C7 as stated fails: the table holds one record, `Qm123` kept for 3 months
with the uploader list `[0xA]`, and `0xA` submits `Qm123` again for 12 months.
The pin consumer records the submission in a row whose uploader list is
`[0xA, 0xA]`: the submitter is added again although the prior record already
lists them; the file consumer does the same. -/
theorem recorded_uploader_duplicated :
    (sampleDB3.map (fun r => (r.Hash, r.UploaderAddresses))) = [("Qm123", ["0xA"])] ∧
    ((ConsumeMessage.DatabasePinAddQueue sampleConsumeEnv sampleDB3 (deliveryOf "A12")).2.map
      (fun r => (r.Hash, r.UploaderAddresses))) =
      [("Qm123", ["0xA"]), ("Qm123", ["0xA", "0xA"])] ∧
    ¬ (["0xA", "0xA"] : List String).Nodup ∧
    ((ConsumeMessage.DatabaseFileAddQueue sampleConsumeEnv sampleDB3 (deliveryOf "A12")).2.map
      (fun r => (r.Hash, r.UploaderAddresses))) =
      [("Qm123", ["0xA"]), ("Qm123", ["0xA", "0xA"])] := by
  decide

/-! ### The file add consumer -/

/-- C11: a file add job whose staged payload was fetched and added to the store
and whose ledger write succeeded, but whose staged object could not be removed:
the ledger calls of the body are the one lookup and the one write (when no
record existed: one insert of kind "file" for the resulting hash, no update;
when one existed: one update, no insert), nothing follows the failed removal but
the acknowledgement, and the delivery is acknowledged once. -/
theorem file_cleanup_failure_keeps_ledger (env : Env) (m0 m : IpfsManager) (d : Delivery)
    (f : IPFSFile) (obj h : String) (e : GoError)
    (hd : env.unmarshalFile d.Body = .ok f)
    (hget : env.GetObject f.BucketName f.ObjectName = .ok obj)
    (hcall : Event.Add m obj ∈ (ProccessIPFSFiles.body env m0 d).1)
    (hadd : env.Add m obj = .ok h)
    (hrm : env.RemoveObject f.BucketName f.ObjectName = some e) :
    (env.FindUploadByHashAndNetwork h f.NetworkName = some GoError.ErrRecordNotFound →
      env.NewUpload h "file" f.NetworkName f.UserName (ProccessIPFSFiles.holdTimeInt f) = none →
      ledgerLookups (ProccessIPFSFiles.body env m0 d).1 = [(h, f.NetworkName)] ∧
      ledgerInserts (ProccessIPFSFiles.body env m0 d).1 =
        [(h, "file", f.NetworkName, f.UserName, ProccessIPFSFiles.holdTimeInt f)] ∧
      ledgerUpdates (ProccessIPFSFiles.body env m0 d).1 = [] ∧
      stagingRemovals (ProccessIPFSFiles.body env m0 d).1 = [(f.BucketName, f.ObjectName)]) ∧
    (env.FindUploadByHashAndNetwork h f.NetworkName = none →
      env.UpdateUpload (ProccessIPFSFiles.holdTimeInt f) f.UserName h f.NetworkName = none →
      ledgerLookups (ProccessIPFSFiles.body env m0 d).1 = [(h, f.NetworkName)] ∧
      ledgerUpdates (ProccessIPFSFiles.body env m0 d).1 =
        [(ProccessIPFSFiles.holdTimeInt f, f.UserName, h, f.NetworkName)] ∧
      ledgerInserts (ProccessIPFSFiles.body env m0 d).1 = [] ∧
      stagingRemovals (ProccessIPFSFiles.body env m0 d).1 = [(f.BucketName, f.ObjectName)]) ∧
    (ProccessIPFSFiles.body env m0 d).1.getLast? = some (Event.Ack false) ∧
    acks (ProccessIPFSFiles.body env m0 d).1 = 1 ∧
    nacks (ProccessIPFSFiles.body env m0 d).1 = 0 := by
  simp only [ProccessIPFSFiles.body, hd, ProccessIPFSFiles.add, hget, ProccessIPFSFiles.ledger,
    ProccessIPFSFiles.cleanup, hrm] at hcall ⊢
  repeat' split
  all_goals
    simp_all [ledgerLookups, ledgerInserts, ledgerUpdates, stagingRemovals, acks, nacks]

/-- C11 at the sample public file add job with the removal of the staged object
failing. -/
theorem file_cleanup_failure_keeps_ledger_witness :
    cleanupFailsEnv.unmarshalFile sampleDelivery.Body = .ok sampleFile ∧
    cleanupFailsEnv.RemoveObject "filesuploadbucket" "obj1" =
      some (GoError.other "bucket unreachable") ∧
    ledgerInserts (ProccessIPFSFiles.body cleanupFailsEnv (some "") sampleDelivery).1 =
      [("Qmobj1", "file", "public", "alice", 3)] ∧
    ledgerUpdates (ProccessIPFSFiles.body cleanupFailsEnv (some "") sampleDelivery).1 = [] ∧
    acks (ProccessIPFSFiles.body cleanupFailsEnv (some "") sampleDelivery).1 = 1 :=
  have hcall : Event.Add (some "") "obj1" ∈
      (ProccessIPFSFiles.body cleanupFailsEnv (some "") sampleDelivery).1 := by decide
  have h := file_cleanup_failure_keeps_ledger cleanupFailsEnv (some "") (some "")
    sampleDelivery sampleFile "obj1" "Qmobj1" (GoError.other "bucket unreachable")
    rfl rfl hcall rfl rfl
  have hi := h.1 rfl rfl
  ⟨rfl, rfl, hi.2.1, hi.2.2.1, h.2.2.2.1⟩

/-- C12: the file add body never calls the store's pin.  For a decoded job, when
the store add succeeds with hash `h` the body publishes exactly one pin job,
carrying `h`, the job's network and user and the parsed hold time; when fetching
the staged payload fails, or the add fails, it publishes no pin job and makes no
ledger call. -/
theorem file_add_forwards_pin_job (env : Env) (m0 : IpfsManager) (d : Delivery) :
    storePins (ProccessIPFSFiles.body env m0 d).1 = [] ∧
    ∀ f : IPFSFile, env.unmarshalFile d.Body = .ok f →
      (∀ (m : IpfsManager) (obj h : String),
        Event.Add m obj ∈ (ProccessIPFSFiles.body env m0 d).1 → env.Add m obj = .ok h →
        pinJobs (ProccessIPFSFiles.body env m0 d).1 =
          [({ CID := h, NetworkName := f.NetworkName, UserName := f.UserName,
              HoldTimeInMonths := ProccessIPFSFiles.holdTimeInt f, CreditCost := 0 },
            env.consts.PinExchange)]) ∧
      ((∃ e, env.GetObject f.BucketName f.ObjectName = .error e) →
        storeAdds (ProccessIPFSFiles.body env m0 d).1 = [] ∧
        pinJobs (ProccessIPFSFiles.body env m0 d).1 = [] ∧
        ledgerLookups (ProccessIPFSFiles.body env m0 d).1 = [] ∧
        ledgerInserts (ProccessIPFSFiles.body env m0 d).1 = [] ∧
        ledgerUpdates (ProccessIPFSFiles.body env m0 d).1 = []) ∧
      (∀ (m : IpfsManager) (obj : String) (e : GoError),
        Event.Add m obj ∈ (ProccessIPFSFiles.body env m0 d).1 → env.Add m obj = .error e →
        pinJobs (ProccessIPFSFiles.body env m0 d).1 = [] ∧
        ledgerLookups (ProccessIPFSFiles.body env m0 d).1 = [] ∧
        ledgerInserts (ProccessIPFSFiles.body env m0 d).1 = [] ∧
        ledgerUpdates (ProccessIPFSFiles.body env m0 d).1 = []) := by
  refine ⟨?_, ?_⟩
  · unfold ProccessIPFSFiles.body ProccessIPFSFiles.add ProccessIPFSFiles.ledger
      ProccessIPFSFiles.cleanup
    try dsimp only
    repeat' split
    all_goals simp [storePins]
  · intro f hd
    simp only [ProccessIPFSFiles.body, hd, ProccessIPFSFiles.add, ProccessIPFSFiles.ledger,
      ProccessIPFSFiles.cleanup]
    repeat' split
    all_goals
      simp_all [pinJobs, storeAdds, ledgerLookups, ledgerInserts, ledgerUpdates]

/-- C12 at the sample public file add job, whose add returns `Qmobj1`. -/
theorem file_add_forwards_pin_job_witness :
    sampleEnv.unmarshalFile sampleDelivery.Body = .ok sampleFile ∧
    sampleEnv.Add (some "") "obj1" = .ok "Qmobj1" ∧
    pinJobs (ProccessIPFSFiles.body sampleEnv (some "") sampleDelivery).1 =
      [({ CID := "Qmobj1", NetworkName := "public", UserName := "alice",
          HoldTimeInMonths := 3, CreditCost := 0 }, "ipfs-pin")] :=
  have hcall : Event.Add (some "") "obj1" ∈
      (ProccessIPFSFiles.body sampleEnv (some "") sampleDelivery).1 := by decide
  have h := (file_add_forwards_pin_job sampleEnv (some "") sampleDelivery).2 sampleFile rfl
  have hp := h.1 (some "") "obj1" "Qmobj1" hcall rfl
  ⟨rfl, rfl, by rw [hp]; decide⟩

/-- C13 at the failing input: one worker handles a job for the private network
`net1` (access granted, endpoint found, connection opened) and then a job for
the public network.  The public job's payload `obj1` is added through the client
opened on the endpoint of `net1`, not through the default client; handled alone,
the same job is added through the default client. -/
theorem public_file_added_through_private_store :
    (fileWorkerEnvs (deliveryOf "public")).unmarshalFile (deliveryOf "public").Body =
      .ok sampleFile ∧
    sampleFile.NetworkName = "public" ∧
    (ProccessIPFSFiles fileWorkerEnvs [deliveryOf "private", deliveryOf "public"]).map
        storeAdds =
      [[(some "http://net1:5001", "obj0")], [(some "http://net1:5001", "obj1")]] ∧
    (ProccessIPFSFiles fileWorkerEnvs [deliveryOf "public"]).map storeAdds =
      [[(some "", "obj1")]] :=
  ⟨rfl, rfl, by decide, by decide⟩

/-- A character has a digit value exactly when it is one of the digits 0 to 9. -/
theorem digitValue_eq (c : Char) :
    digitValue c = if c.isDigit = true then some (c.toNat - 48) else none := by
  unfold digitValue
  have h : ('0' ≤ c ∧ c ≤ '9') ↔ c.isDigit = true := by
    simp [Char.isDigit, Char.le_def, UInt32.le_def]
  by_cases hc : c.isDigit = true
  · rw [if_pos (h.mpr hc), if_pos hc]
    rfl
  · rw [if_neg (fun hh => hc (h.mp hh)), if_neg hc]

/-- Reading digits one by one gives the value of the numeral, and fails exactly
when some character is not a digit. -/
theorem parseDecimal_eq (cs : List Char) (acc : Nat) :
    parseDecimal cs acc =
      if cs.all Char.isDigit = true then
        some (cs.foldl (fun a c => a * 10 + (c.toNat - 48)) acc)
      else none := by
  induction cs generalizing acc with
  | nil => simp [parseDecimal]
  | cons c cs ih =>
    simp only [parseDecimal, digitValue_eq]
    by_cases hc : c.isDigit = true
    · simp [hc, ih]
    · simp [hc]

/-- `strconv.ParseInt(s, 10, 64)` succeeds exactly on the strings that denote a
signed 64-bit integer in base 10, with that integer as its value. -/
theorem parseInt_eq_denoted (s : String) :
    (match ParseInt s with
      | .ok n => some n
      | .error _ => none) = denotedInt64 s := by
  unfold ParseInt denotedInt64 ParseUint
  cases hs : s.toList with
  | nil => simp
  | cons c cs =>
    simp only [List.head?_cons, List.tail_cons, Option.some.injEq, parseDecimal_eq, decimalValue]
    by_cases hm : c = '-'
    · subst hm
      by_cases h1 : cs = []
      · simp [h1]
      · by_cases h2 : ∀ x ∈ cs, x.isDigit = true
        · simp [h1]
          generalize List.foldl (fun a c => a * 10 + (c.toNat - 48)) 0 cs = v
          rw [if_pos h2, if_pos h2]
          by_cases h3 : 9223372036854775808 < v
          · have h4 : ¬ (v ≤ 9223372036854775808 ∧ -(v : Int) ≤ 9223372036854775807) := by
              omega
            simp [h3, h4]
          · have h4 : v ≤ 9223372036854775808 ∧ -(v : Int) ≤ 9223372036854775807 := by omega
            simp [h3, h4]
        · simp [h1, h2]
    · by_cases hp : c = '+'
      · subst hp
        by_cases h1 : cs = []
        · simp [h1]
        · by_cases h2 : ∀ x ∈ cs, x.isDigit = true
          · simp [h1]
            generalize List.foldl (fun a c => a * 10 + (c.toNat - 48)) 0 cs = v
            rw [if_pos h2, if_pos h2]
            by_cases h3 : 9223372036854775808 ≤ v
            · have h4 : ¬ (-9223372036854775808 ≤ (v : Int) ∧ v ≤ 9223372036854775807) := by
                omega
              simp [h3, h4]
            · have h4 : -9223372036854775808 ≤ (v : Int) ∧ v ≤ 9223372036854775807 := by omega
              simp [h3, h4]
          · simp [h1, h2]
      · by_cases h2 : c.isDigit = true ∧ ∀ x ∈ cs, x.isDigit = true
        · simp [hm, hp]
          generalize List.foldl (fun a c => a * 10 + (c.toNat - 48)) (c.toNat - 48) cs = v
          rw [if_pos h2, if_pos h2]
          by_cases h3 : 9223372036854775808 ≤ v
          · have h4 : ¬ (-9223372036854775808 ≤ (v : Int) ∧ v ≤ 9223372036854775807) := by
              omega
            simp [h3, h4]
          · have h4 : -9223372036854775808 ≤ (v : Int) ∧ v ≤ 9223372036854775807 := by omega
            simp [h3, h4]
        · simp [hm, hp, h2]

/-- The hold time the body uses is the hold time as the specification words
it. -/
theorem holdTimeInt_eq_spec (f : IPFSFile) :
    ProccessIPFSFiles.holdTimeInt f = specHoldTime f := by
  unfold ProccessIPFSFiles.holdTimeInt specHoldTime
  rw [← parseInt_eq_denoted]
  cases ParseInt f.HoldTimeInMonths <;> rfl

/-- C14: for a decoded file add job, the hold time carried by the published pin
job and by the ledger insert or update is the integer denoted by the job's
`hold_time_in_months` string when that string is a valid base-10 signed 64-bit
integer, and 1 for every other string. -/
theorem file_hold_time (env : Env) (m0 : IpfsManager) (d : Delivery) (f : IPFSFile)
    (hd : env.unmarshalFile d.Body = .ok f) :
    (∀ p ∈ pinJobs (ProccessIPFSFiles.body env m0 d).1,
      p.1.HoldTimeInMonths = specHoldTime f) ∧
    (∀ r ∈ ledgerInserts (ProccessIPFSFiles.body env m0 d).1, r.2.2.2.2 = specHoldTime f) ∧
    (∀ r ∈ ledgerUpdates (ProccessIPFSFiles.body env m0 d).1, r.1 = specHoldTime f) ∧
    (∀ n : Int, denotedInt64 f.HoldTimeInMonths = some n → specHoldTime f = n) ∧
    (denotedInt64 f.HoldTimeInMonths = none → specHoldTime f = 1) := by
  refine ⟨?_, ?_, ?_, ?_, ?_⟩
  · rw [← holdTimeInt_eq_spec]
    simp only [ProccessIPFSFiles.body, hd, ProccessIPFSFiles.add, ProccessIPFSFiles.ledger,
      ProccessIPFSFiles.cleanup]
    repeat' split
    all_goals simp_all [pinJobs]
  · rw [← holdTimeInt_eq_spec]
    simp only [ProccessIPFSFiles.body, hd, ProccessIPFSFiles.add, ProccessIPFSFiles.ledger,
      ProccessIPFSFiles.cleanup]
    repeat' split
    all_goals simp_all [ledgerInserts]
  · rw [← holdTimeInt_eq_spec]
    simp only [ProccessIPFSFiles.body, hd, ProccessIPFSFiles.add, ProccessIPFSFiles.ledger,
      ProccessIPFSFiles.cleanup]
    repeat' split
    all_goals simp_all [ledgerUpdates]
  · intro n hn
    simp [specHoldTime, hn]
  · intro hn
    simp [specHoldTime, hn]

/-- C14 at the sample file add job, whose hold time string is `3`; the empty
string, a word, a fraction and `2^63` denote no signed 64-bit integer. -/
theorem file_hold_time_witness :
    sampleEnv.unmarshalFile sampleDelivery.Body = .ok sampleFile ∧
    denotedInt64 "3" = some 3 ∧
    (∀ r ∈ ledgerInserts (ProccessIPFSFiles.body sampleEnv (some "") sampleDelivery).1,
      r.2.2.2.2 = 3) ∧
    denotedInt64 "" = none ∧ denotedInt64 "three" = none ∧ denotedInt64 "1.5" = none ∧
    denotedInt64 "9223372036854775808" = none ∧
    denotedInt64 "-9223372036854775808" = some (-9223372036854775808) :=
  have h := file_hold_time sampleEnv (some "") sampleDelivery sampleFile rfl
  have h3 : specHoldTime sampleFile = 3 := h.2.2.2.1 3 (by decide)
  ⟨rfl, by decide, fun r hr => (h.2.1 r hr).trans h3, by decide, by decide, by decide,
    by decide, by decide⟩

/-! ### The IPNS consumer -/

/-- C15 (amended): for an IPNS job on a non-public network, once the local
publisher has been constructed and the job decoded, the body issues exactly one
credit refund (the job's user and credit cost) and acknowledges; it makes no
credential service call, publishes no naming record and neither looks up nor
writes an IPNS record. -/
theorem ipns_private_refunds (env : Env) (d : Delivery) (ie : IPNSEntry)
    (hpub : env.NewPublisher = none)
    (hd : env.unmarshalIPNSEntry d.Body = .ok ie) (hnet : ie.NetworkName ≠ "public") :
    ProcessIPNSEntryCreationRequests.body env d =
      [Event.NewPublisher, Event.refundCredits ie.UserName "ipns" ie.CreditCost,
       Event.Ack false] ∧
    refundCalls (ProcessIPNSEntryCreationRequests.body env d) =
      [(ie.UserName, "ipns", ie.CreditCost)] ∧
    credentialCalls (ProcessIPNSEntryCreationRequests.body env d) = [] ∧
    namePublishes (ProcessIPNSEntryCreationRequests.body env d) = [] ∧
    ipnsLookups (ProcessIPNSEntryCreationRequests.body env d) = [] ∧
    ipnsUpdates (ProcessIPNSEntryCreationRequests.body env d) = [] ∧
    ipnsInserts (ProcessIPNSEntryCreationRequests.body env d) = [] ∧
    acks (ProcessIPNSEntryCreationRequests.body env d) = 1 ∧
    nacks (ProcessIPNSEntryCreationRequests.body env d) = 0 := by
  have ht : ProcessIPNSEntryCreationRequests.body env d =
      [Event.NewPublisher, Event.refundCredits ie.UserName "ipns" ie.CreditCost,
       Event.Ack false] := by
    simp [ProcessIPNSEntryCreationRequests.body, hpub, hd, hnet]
  rw [ht]
  simp [refundCalls, credentialCalls, namePublishes, ipnsLookups, ipnsUpdates, ipnsInserts,
    acks, nacks]

/-- C15 (amended) at the sample IPNS job sent to the private network `net1`. -/
theorem ipns_private_refunds_witness :
    privateIPNSEnv.NewPublisher = none ∧
    privateIPNSEnv.unmarshalIPNSEntry sampleDelivery.Body = .ok privateIPNSEntry ∧
    privateIPNSEntry.NetworkName ≠ "public" ∧
    refundCalls (ProcessIPNSEntryCreationRequests.body privateIPNSEnv sampleDelivery) =
      [("alice", "ipns", 10)] ∧
    credentialCalls (ProcessIPNSEntryCreationRequests.body privateIPNSEnv sampleDelivery) = [] :=
  have h := ipns_private_refunds privateIPNSEnv sampleDelivery privateIPNSEntry rfl rfl
    (by decide)
  ⟨rfl, rfl, by decide, h.2.1, h.2.2.1⟩

/-- C15 as stated fails when the local publisher cannot be constructed: the
delivery carries the sample job for the private network `net1`, the body stops
after `NewPublisher` with the acknowledgement, and no refund is issued. -/
theorem ipns_private_without_refund :
    publisherFailsEnv.unmarshalIPNSEntry sampleDelivery.Body = .ok privateIPNSEntry ∧
    privateIPNSEntry.NetworkName ≠ "public" ∧
    ProcessIPNSEntryCreationRequests.body publisherFailsEnv sampleDelivery =
      [Event.NewPublisher, Event.Ack false] ∧
    refundCalls (ProcessIPNSEntryCreationRequests.body publisherFailsEnv sampleDelivery) = [] :=
  ⟨rfl, by decide, by decide, by decide⟩

/-- C16: for a decoded IPNS job on the public network: when fetching the private
key, decoding it, or publishing the record fails, exactly one credit refund is
issued and no IPNS record is looked up or written; once the publish has
succeeded no refund is issued, whatever the identity derivation, the lookup and
the write return. -/
theorem ipns_public_refunds (env : Env) (d : Delivery) (ie : IPNSEntry)
    (hpub : env.NewPublisher = none)
    (hd : env.unmarshalIPNSEntry d.Body = .ok ie) (hnet : ie.NetworkName = "public") :
    ((∃ e, env.GetPrivateKey ie.Key = .error e) →
      refundCalls (ProcessIPNSEntryCreationRequests.body env d) =
        [(ie.UserName, "ipns", ie.CreditCost)] ∧
      namePublishes (ProcessIPNSEntryCreationRequests.body env d) = [] ∧
      ipnsLookups (ProcessIPNSEntryCreationRequests.body env d) = [] ∧
      ipnsUpdates (ProcessIPNSEntryCreationRequests.body env d) = [] ∧
      ipnsInserts (ProcessIPNSEntryCreationRequests.body env d) = []) ∧
    (∀ resp e, env.GetPrivateKey ie.Key = .ok resp → env.UnmarshalPrivateKey resp = .error e →
      refundCalls (ProcessIPNSEntryCreationRequests.body env d) =
        [(ie.UserName, "ipns", ie.CreditCost)] ∧
      namePublishes (ProcessIPNSEntryCreationRequests.body env d) = [] ∧
      ipnsLookups (ProcessIPNSEntryCreationRequests.body env d) = [] ∧
      ipnsUpdates (ProcessIPNSEntryCreationRequests.body env d) = [] ∧
      ipnsInserts (ProcessIPNSEntryCreationRequests.body env d) = []) ∧
    (∀ resp pk2 e, env.GetPrivateKey ie.Key = .ok resp → env.UnmarshalPrivateKey resp = .ok pk2 →
      env.PublishWithEOL ie.TTL pk2 ie.CID (env.Now + ie.LifeTime) = some e →
      refundCalls (ProcessIPNSEntryCreationRequests.body env d) =
        [(ie.UserName, "ipns", ie.CreditCost)] ∧
      ipnsLookups (ProcessIPNSEntryCreationRequests.body env d) = [] ∧
      ipnsUpdates (ProcessIPNSEntryCreationRequests.body env d) = [] ∧
      ipnsInserts (ProcessIPNSEntryCreationRequests.body env d) = []) ∧
    (∀ resp pk2, env.GetPrivateKey ie.Key = .ok resp → env.UnmarshalPrivateKey resp = .ok pk2 →
      env.PublishWithEOL ie.TTL pk2 ie.CID (env.Now + ie.LifeTime) = none →
      refundCalls (ProcessIPNSEntryCreationRequests.body env d) = [] ∧
      namePublishes (ProcessIPNSEntryCreationRequests.body env d) =
        [(ie.TTL, pk2, ie.CID, env.Now + ie.LifeTime)]) ∧
    acks (ProcessIPNSEntryCreationRequests.body env d) = 1 := by
  refine ⟨?_, ?_, ?_, ?_, (ipns_body_acks env d).1⟩
  · rintro ⟨e, hk⟩
    simp [ProcessIPNSEntryCreationRequests.body, hpub, hd, hnet,
      ProcessIPNSEntryCreationRequests.publish, hk, refundCalls, namePublishes, ipnsLookups,
      ipnsUpdates, ipnsInserts]
  · intro resp e hk hu
    simp [ProcessIPNSEntryCreationRequests.body, hpub, hd, hnet,
      ProcessIPNSEntryCreationRequests.publish, hk, hu, refundCalls, namePublishes,
      ipnsLookups, ipnsUpdates, ipnsInserts]
  · intro resp pk2 e hk hu hp
    simp [ProcessIPNSEntryCreationRequests.body, hpub, hd, hnet,
      ProcessIPNSEntryCreationRequests.publish, hk, hu, hp, refundCalls, ipnsLookups,
      ipnsUpdates, ipnsInserts]
  · intro resp pk2 hk hu hp
    simp only [ProcessIPNSEntryCreationRequests.body, hpub, hd, hnet,
      ProcessIPNSEntryCreationRequests.publish, hk, hu, hp,
      ProcessIPNSEntryCreationRequests.record]
    repeat' split
    all_goals simp_all [refundCalls, namePublishes]

/-- C16 at the sample public IPNS job, where every call succeeds. -/
theorem ipns_public_refunds_witness :
    sampleEnv.NewPublisher = none ∧
    sampleEnv.unmarshalIPNSEntry sampleDelivery.Body = .ok sampleIPNSEntry ∧
    sampleIPNSEntry.NetworkName = "public" ∧
    refundCalls (ProcessIPNSEntryCreationRequests.body sampleEnv sampleDelivery) = [] :=
  have h := ipns_public_refunds sampleEnv sampleDelivery sampleIPNSEntry rfl rfl rfl
  ⟨rfl, rfl, rfl, (h.2.2.2.1 "bytes-alice-k1" "pk-bytes-alice-k1" rfl rfl rfl).1⟩

/-- C17: after a successful IPNS publish and identity derivation, the record
store is looked up once by the derived identity; when a record exists it is
updated exactly once with the job's content hash, lifetime and TTL and no record
is inserted; when none exists exactly one record is inserted, carrying the
identity, content hash, key name, network, user, lifetime and TTL of the job. -/
theorem ipns_record_upsert (env : Env) (d : Delivery) (ie : IPNSEntry) (resp pk2 id : String)
    (hpub : env.NewPublisher = none)
    (hd : env.unmarshalIPNSEntry d.Body = .ok ie) (hnet : ie.NetworkName = "public")
    (hk : env.GetPrivateKey ie.Key = .ok resp) (hu : env.UnmarshalPrivateKey resp = .ok pk2)
    (hp : env.PublishWithEOL ie.TTL pk2 ie.CID (env.Now + ie.LifeTime) = none)
    (hid : env.IDFromPrivateKey pk2 = .ok id) :
    ipnsLookups (ProcessIPNSEntryCreationRequests.body env d) = [id] ∧
    (env.FindByIPNSHash id = none →
      ipnsUpdates (ProcessIPNSEntryCreationRequests.body env d) =
        [(id, ie.CID, ie.NetworkName, ie.UserName, ie.LifeTime, ie.TTL)] ∧
      ipnsInserts (ProcessIPNSEntryCreationRequests.body env d) = []) ∧
    (env.FindByIPNSHash id = some GoError.ErrRecordNotFound →
      ipnsInserts (ProcessIPNSEntryCreationRequests.body env d) =
        [(id, ie.CID, ie.Key, ie.NetworkName, ie.UserName, ie.LifeTime, ie.TTL)] ∧
      ipnsUpdates (ProcessIPNSEntryCreationRequests.body env d) = []) := by
  simp only [ProcessIPNSEntryCreationRequests.body, hpub, hd, hnet,
    ProcessIPNSEntryCreationRequests.publish, hk, hu, hp,
    ProcessIPNSEntryCreationRequests.record, hid]
  repeat' split
  all_goals simp_all [ipnsLookups, ipnsUpdates, ipnsInserts]

/-- C17 at the sample IPNS job, once with no record for the identity and once
with the record present. -/
theorem ipns_record_upsert_witness :
    sampleEnv.IDFromPrivateKey "pk-bytes-alice-k1" = .ok "id-pk-bytes-alice-k1" ∧
    ipnsInserts (ProcessIPNSEntryCreationRequests.body sampleEnv sampleDelivery) =
      [("id-pk-bytes-alice-k1", "Qm123", "alice-k1", "public", "alice", 3600000000000,
        60000000000)] ∧
    ipnsUpdates (ProcessIPNSEntryCreationRequests.body ipnsRecordExistsEnv sampleDelivery) =
      [("id-pk-bytes-alice-k1", "Qm123", "public", "alice", 3600000000000, 60000000000)] ∧
    ipnsInserts (ProcessIPNSEntryCreationRequests.body ipnsRecordExistsEnv sampleDelivery) = [] :=
  have h1 := ipns_record_upsert sampleEnv sampleDelivery sampleIPNSEntry "bytes-alice-k1"
    "pk-bytes-alice-k1" "id-pk-bytes-alice-k1" rfl rfl rfl rfl rfl rfl rfl
  have h2 := ipns_record_upsert ipnsRecordExistsEnv sampleDelivery sampleIPNSEntry
    "bytes-alice-k1" "pk-bytes-alice-k1" "id-pk-bytes-alice-k1" rfl rfl rfl rfl rfl rfl rfl
  ⟨rfl, (h1.2.2 rfl).1, (h2.2.1 rfl).1, (h2.2.1 rfl).2⟩

/-- C18 at the failing input: the sample public IPNS job is published, its
identity derived, and the lookup of the existing record fails with an error
other than record not found.  The body goes on to insert a record for the
identity; it issues no refund and acknowledges once. -/
theorem ipns_lookup_failure_inserts :
    ipnsLookupFailsEnv.FindByIPNSHash "id-pk-bytes-alice-k1" =
      some (GoError.other "connection refused") ∧
    ipnsLookups (ProcessIPNSEntryCreationRequests.body ipnsLookupFailsEnv sampleDelivery) =
      ["id-pk-bytes-alice-k1"] ∧
    ipnsInserts (ProcessIPNSEntryCreationRequests.body ipnsLookupFailsEnv sampleDelivery) =
      [("id-pk-bytes-alice-k1", "Qm123", "alice-k1", "public", "alice", 3600000000000,
        60000000000)] ∧
    refundCalls (ProcessIPNSEntryCreationRequests.body ipnsLookupFailsEnv sampleDelivery) = [] ∧
    acks (ProcessIPNSEntryCreationRequests.body ipnsLookupFailsEnv sampleDelivery) = 1 :=
  ⟨rfl, by decide, rfl, by decide, by decide⟩

/-! ### The key creation consumer -/

/-- C19: for a decoded key creation job, a key is generated exactly when the
network is "public" and the type is "ed25519", or "rsa" with a size of at most
4096; in every other case the body is the acknowledgement alone (no key, nothing
stored on the user record).  No path issues a refund, and the delivery is
acknowledged once. -/
theorem key_creation_gate (env : Env) (d : Delivery) (key : IPFSKeyCreation)
    (hd : env.unmarshalKeyCreation d.Body = .ok key) :
    (keyCreations (ProcessIPFSKeyCreation.body env d) ≠ [] ↔
      key.NetworkName = "public" ∧
        (key.Type_ = "ed25519" ∨ (key.Type_ = "rsa" ∧ key.Size ≤ 4096))) ∧
    (¬ (key.NetworkName = "public" ∧
        (key.Type_ = "ed25519" ∨ (key.Type_ = "rsa" ∧ key.Size ≤ 4096))) →
      ProcessIPFSKeyCreation.body env d = [Event.Ack false] ∧
      keyCreations (ProcessIPFSKeyCreation.body env d) = [] ∧
      keyPersists (ProcessIPFSKeyCreation.body env d) = []) ∧
    refundCalls (ProcessIPFSKeyCreation.body env d) = [] ∧
    acks (ProcessIPFSKeyCreation.body env d) = 1 ∧
    nacks (ProcessIPFSKeyCreation.body env d) = 0 := by
  simp only [ProcessIPFSKeyCreation.body, hd, ProcessIPFSKeyCreation.create]
  repeat' split
  all_goals simp_all [keyCreations, keyPersists, refundCalls, acks, nacks]

/-- C19 at the scenario of the specification, an RSA key of 8192 bits, and at
the sample job, an RSA key of 2048 bits. -/
theorem key_creation_gate_witness :
    bigKeyEnv.unmarshalKeyCreation sampleDelivery.Body = .ok bigKey ∧
    ProcessIPFSKeyCreation.body bigKeyEnv sampleDelivery = [Event.Ack false] ∧
    keyCreations (ProcessIPFSKeyCreation.body bigKeyEnv sampleDelivery) = [] ∧
    keyCreations (ProcessIPFSKeyCreation.body sampleEnv sampleDelivery) ≠ [] :=
  have h := key_creation_gate bigKeyEnv sampleDelivery bigKey rfl
  have hs := key_creation_gate sampleEnv sampleDelivery sampleKey rfl
  have hrej := h.2.1 (by decide)
  ⟨rfl, hrej.1, hrej.2.1, hs.1.mpr (by decide)⟩

/-- C20: for a decoded key creation job that is accepted, one key is generated,
under the name made of the user name, a dash and the label: an Ed25519 key of
256 bits for type "ed25519" whatever size was asked for, an RSA key of the
requested size for type "rsa".  When the generation and the identity derivation
succeed, the mapping of user, key name and identity is stored on the user record
exactly once; when either fails nothing is stored. -/
theorem key_creation_accepted (env : Env) (d : Delivery) (key : IPFSKeyCreation)
    (keyType : KeyType) (bits : Int)
    (hd : env.unmarshalKeyCreation d.Body = .ok key) (hnet : key.NetworkName = "public")
    (hacc : (key.Type_ = "ed25519" ∧ keyType = KeyType.Ed25519 ∧ bits = 256) ∨
      (key.Type_ = "rsa" ∧ key.Size ≤ 4096 ∧ keyType = KeyType.RSA ∧ bits = key.Size)) :
    keyCreations (ProcessIPFSKeyCreation.body env d) =
      [(key.UserName ++ "-" ++ key.Name, keyType, bits)] ∧
    (∀ pk id : String,
      env.CreateAndSaveKey (key.UserName ++ "-" ++ key.Name) keyType bits = .ok pk →
      env.IDFromPrivateKey pk = .ok id →
      keyPersists (ProcessIPFSKeyCreation.body env d) =
        [(key.UserName, key.UserName ++ "-" ++ key.Name, id)]) ∧
    ((∃ e, env.CreateAndSaveKey (key.UserName ++ "-" ++ key.Name) keyType bits = .error e) →
      keyPersists (ProcessIPFSKeyCreation.body env d) = []) ∧
    (∀ pk : String,
      env.CreateAndSaveKey (key.UserName ++ "-" ++ key.Name) keyType bits = .ok pk →
      (∃ e, env.IDFromPrivateKey pk = .error e) →
      keyPersists (ProcessIPFSKeyCreation.body env d) = []) := by
  have hb : ProcessIPFSKeyCreation.body env d =
      ProcessIPFSKeyCreation.create env key keyType bits := by
    rcases hacc with ⟨ht, hk, hbits⟩ | ⟨ht, hs, hk, hbits⟩
    · have hne : ¬ key.Type_ = "rsa" := by rw [ht]; decide
      simp [ProcessIPFSKeyCreation.body, hd, hnet, hne, ht, hk, hbits]
    · have hs2 : ¬ key.Size > 4096 := not_lt.mpr hs
      simp [ProcessIPFSKeyCreation.body, hd, hnet, ht, hs2, hk, hbits]
  rw [hb]
  simp only [ProcessIPFSKeyCreation.create]
  refine ⟨?_, ?_, ?_, ?_⟩
  · repeat' split
    all_goals simp [keyCreations]
  · intro pk id hc hi
    rw [hc]
    simp only [hi]
    split <;> simp [keyPersists]
  · rintro ⟨e, hc⟩
    rw [hc]
    simp [keyPersists]
  · rintro pk hc ⟨e, hi⟩
    rw [hc]
    simp only [hi]
    simp [keyPersists]

/-- C20 at the sample job: the RSA key `k1` of 2048 bits for `alice`. -/
theorem key_creation_accepted_witness :
    sampleEnv.unmarshalKeyCreation sampleDelivery.Body = .ok sampleKey ∧
    keyCreations (ProcessIPFSKeyCreation.body sampleEnv sampleDelivery) =
      [("alice-k1", KeyType.RSA, 2048)] ∧
    keyPersists (ProcessIPFSKeyCreation.body sampleEnv sampleDelivery) =
      [("alice", "alice-k1", "id-pk-alice-k1")] :=
  have h := key_creation_accepted sampleEnv sampleDelivery sampleKey KeyType.RSA 2048 rfl rfl
    (Or.inr ⟨rfl, by decide, rfl, rfl⟩)
  ⟨rfl, h.1, h.2.1 "pk-alice-k1" "id-pk-alice-k1" rfl rfl⟩

/-! ### The mail consumer -/

/-- The mail body is the loop followed by the final acknowledgement when that is
reached. -/
theorem mail_body_eq (env : Env) (d : Delivery) (es : EmailSend)
    (hd : env.unmarshalEmailSend d.Body = .ok es) :
    ProcessMailSends.body env d =
      (ProcessMailSends.sendLoop env es es.UserNames es.Emails false).1 ++
        (if ProcessMailSends.finalAckReached env es = true then [Event.Ack false] else []) := by
  have h : ∀ x : List Event × Option Bool,
      (match x with
        | (evs, some true) => evs ++ [Event.Ack false]
        | (evs, _) => evs) =
      x.1 ++ (if (x.2 == some true) = true then [Event.Ack false] else []) := by
    rintro ⟨evs, _ | _ | _⟩ <;> simp
  simp only [ProcessMailSends.body, hd, ProcessMailSends.finalAckReached]
  exact h _

/-- The loop over recipients when no index lookup fails: the flag it ends with,
the sends it makes and the acknowledgements it makes. -/
theorem mail_loop_spec (env : Env) (es : EmailSend) (vs : List String) :
    ∀ (us : List String) (b : Bool), vs.length ≤ us.length →
      (ProcessMailSends.sendLoop env es us vs b).2 =
        some (match (us.zip vs).getLast? with
          | none => b
          | some r => !ProcessMailSends.sendFails env es r) ∧
      sendCalls (ProcessMailSends.sendLoop env es us vs b).1 =
        (us.zip vs).map (fun r => (es.Subject, es.Content, es.ContentType, r.1, r.2)) ∧
      acks (ProcessMailSends.sendLoop env es us vs b).1 =
        ((us.zip vs).filter (ProcessMailSends.sendFails env es)).length ∧
      nacks (ProcessMailSends.sendLoop env es us vs b).1 = 0 ∧
      Event.indexOutOfRange ∉ (ProcessMailSends.sendLoop env es us vs b).1 := by
  induction vs with
  | nil =>
    intro us b _
    cases us <;> simp [ProcessMailSends.sendLoop, sendCalls, acks, nacks]
  | cons v vs ih =>
    intro us b hlen
    cases us with
    | nil => simp at hlen
    | cons u us =>
      have hlen2 : vs.length ≤ us.length := by simpa using hlen
      cases hs : env.SendEmail es.Subject es.Content es.ContentType u v with
      | none =>
        obtain ⟨h1, h2, h3, h4, h5⟩ := ih us true hlen2
        have hf : ProcessMailSends.sendFails env es (u, v) = false := by
          simp [ProcessMailSends.sendFails, hs]
        simp only [ProcessMailSends.sendLoop, hs]
        refine ⟨?_, ?_, ?_, ?_, ?_⟩
        · rw [h1, List.zip_cons_cons, List.getLast?_cons]
          cases (us.zip vs).getLast? <;> simp [hf]
        · simp only [sendCalls, List.filterMap_cons] at h2 ⊢
          simp [h2]
        · simp only [acks, List.countP_cons] at h3 ⊢
          simp [h3, List.filter_cons, hf]
        · simp only [nacks, List.countP_cons] at h4 ⊢
          simp [h4]
        · simp [h5]
      | some e =>
        obtain ⟨h1, h2, h3, h4, h5⟩ := ih us false hlen2
        have hf : ProcessMailSends.sendFails env es (u, v) = true := by
          simp [ProcessMailSends.sendFails, hs]
        simp only [ProcessMailSends.sendLoop, hs]
        refine ⟨?_, ?_, ?_, ?_, ?_⟩
        · rw [h1, List.zip_cons_cons, List.getLast?_cons]
          cases (us.zip vs).getLast? <;> simp [hf]
        · simp only [sendCalls, List.filterMap_cons] at h2 ⊢
          simp [h2]
        · simp only [acks, List.countP_cons] at h3 ⊢
          simp [h3, List.filter_cons, hf]
        · simp only [nacks, List.countP_cons] at h4 ⊢
          simp [h4]
        · simp [h5]

/-- The final acknowledgement is reached only if some send succeeded, whatever
the lengths of the two lists. -/
theorem mail_loop_flag (env : Env) (es : EmailSend) (vs : List String) :
    ∀ (us : List String) (b : Bool),
      (ProcessMailSends.sendLoop env es us vs b).2 = some true →
      b = true ∨ ∃ r ∈ us.zip vs, ProcessMailSends.sendFails env es r = false := by
  induction vs with
  | nil =>
    intro us b h
    cases us <;> simp_all [ProcessMailSends.sendLoop]
  | cons v vs ih =>
    intro us b h
    cases us with
    | nil => simp [ProcessMailSends.sendLoop] at h
    | cons u us =>
      cases hs : env.SendEmail es.Subject es.Content es.ContentType u v with
      | none =>
        right
        exact ⟨(u, v), by simp, by simp [ProcessMailSends.sendFails, hs]⟩
      | some e =>
        simp only [ProcessMailSends.sendLoop, hs] at h
        rcases ih us false h with hb | ⟨r, hr, hfr⟩
        · simp at hb
        · exact Or.inr ⟨r, by simp [hr], hfr⟩

/-- C21 (amended): for a decoded mail job the body is the recipient loop followed
by the final acknowledgement when that is reached.  The final acknowledgement is
never reached when no send succeeds; when `usernames` is at least as long as
`emails` it is reached exactly when `emails` is not empty and the send to the
last recipient succeeded. -/
theorem mail_final_ack (env : Env) (d : Delivery) (es : EmailSend)
    (hd : env.unmarshalEmailSend d.Body = .ok es) :
    ProcessMailSends.body env d =
      (ProcessMailSends.sendLoop env es es.UserNames es.Emails false).1 ++
        (if ProcessMailSends.finalAckReached env es = true then [Event.Ack false] else []) ∧
    ((∀ r ∈ ProcessMailSends.recipients es, ProcessMailSends.sendFails env es r = true) →
      ProcessMailSends.finalAckReached env es = false) ∧
    (es.Emails.length ≤ es.UserNames.length →
      (ProcessMailSends.finalAckReached env es = true ↔
        ∃ r, (ProcessMailSends.recipients es).getLast? = some r ∧
          ProcessMailSends.sendFails env es r = false)) := by
  refine ⟨mail_body_eq env d es hd, ?_, ?_⟩
  · intro hall
    by_contra hne
    have ht : (ProcessMailSends.sendLoop env es es.UserNames es.Emails false).2 = some true := by
      simpa [ProcessMailSends.finalAckReached] using hne
    rcases mail_loop_flag env es es.Emails es.UserNames false ht with hb | ⟨r, hr, hf⟩
    · simp at hb
    · have := hall r hr
      simp [hf] at this
  · intro hlen
    have h := (mail_loop_spec env es es.Emails es.UserNames false hlen).1
    simp only [ProcessMailSends.finalAckReached, ProcessMailSends.recipients, h]
    cases (es.UserNames.zip es.Emails).getLast? <;> simp

/-- C21 (amended) at a job for `alice` and `bob` whose send to `alice` fails and
whose send to `bob`, the last recipient, succeeds. -/
theorem mail_final_ack_witness :
    (mailEnv ["alice", "bob"] ["alice@example.org", "bob@example.org"]
        ["alice@example.org"]).unmarshalEmailSend sampleDelivery.Body =
      .ok (mailJob ["alice", "bob"] ["alice@example.org", "bob@example.org"]) ∧
    ProcessMailSends.finalAckReached
      (mailEnv ["alice", "bob"] ["alice@example.org", "bob@example.org"] ["alice@example.org"])
      (mailJob ["alice", "bob"] ["alice@example.org", "bob@example.org"]) = true :=
  have h := mail_final_ack
    (mailEnv ["alice", "bob"] ["alice@example.org", "bob@example.org"] ["alice@example.org"])
    sampleDelivery (mailJob ["alice", "bob"] ["alice@example.org", "bob@example.org"]) rfl
  ⟨rfl, (h.2.2 (by decide)).mpr ⟨("bob", "bob@example.org"), by decide, by decide⟩⟩

/-- C21 as stated fails: the job goes to `alice` and `bob`; the send to `alice`
succeeds and the send to `bob`, the last recipient, fails.  One send succeeded,
yet the final acknowledgement is not reached: the only acknowledgement is the
one made in the loop for the failed send. -/
theorem mail_success_then_failure :
    ProcessMailSends.sendFails
      (mailEnv ["alice", "bob"] ["alice@example.org", "bob@example.org"] ["bob@example.org"])
      (mailJob ["alice", "bob"] ["alice@example.org", "bob@example.org"])
      ("alice", "alice@example.org") = false ∧
    ProcessMailSends.finalAckReached
      (mailEnv ["alice", "bob"] ["alice@example.org", "bob@example.org"] ["bob@example.org"])
      (mailJob ["alice", "bob"] ["alice@example.org", "bob@example.org"]) = false ∧
    ProcessMailSends.body
      (mailEnv ["alice", "bob"] ["alice@example.org", "bob@example.org"] ["bob@example.org"])
      sampleDelivery =
      [Event.SendEmail "s" "c" "" "alice" "alice@example.org",
       Event.SendEmail "s" "c" "" "bob" "bob@example.org",
       Event.Ack false] := by
  decide

/-- C22: for a decoded mail job whose `usernames` is at least as long as its
`emails`, the body makes exactly one send per entry of `emails`, in index order,
the k-th with the job's subject, content and content type, `usernames[k]` and
`emails[k]`, whatever the sends return; no index lookup fails. -/
theorem mail_sends_every_recipient (env : Env) (d : Delivery) (es : EmailSend)
    (hd : env.unmarshalEmailSend d.Body = .ok es)
    (hlen : es.Emails.length ≤ es.UserNames.length) :
    sendCalls (ProcessMailSends.body env d) =
      List.zipWith (fun u v => (es.Subject, es.Content, es.ContentType, u, v))
        es.UserNames es.Emails ∧
    (sendCalls (ProcessMailSends.body env d)).length = es.Emails.length ∧
    (∀ k, k < es.Emails.length →
      ∃ u v, es.UserNames[k]? = some u ∧ es.Emails[k]? = some v ∧
        (sendCalls (ProcessMailSends.body env d))[k]? =
          some (es.Subject, es.Content, es.ContentType, u, v)) ∧
    Event.indexOutOfRange ∉ ProcessMailSends.body env d := by
  obtain ⟨-, h2, -, -, h5⟩ := mail_loop_spec env es es.Emails es.UserNames false hlen
  have hs : sendCalls (ProcessMailSends.body env d) =
      List.zipWith (fun u v => (es.Subject, es.Content, es.ContentType, u, v))
        es.UserNames es.Emails := by
    rw [mail_body_eq env d es hd]
    have : sendCalls ((ProcessMailSends.sendLoop env es es.UserNames es.Emails false).1 ++
        (if ProcessMailSends.finalAckReached env es = true then [Event.Ack false] else [])) =
        sendCalls (ProcessMailSends.sendLoop env es es.UserNames es.Emails false).1 := by
      unfold sendCalls
      split_ifs <;> simp [List.filterMap_append]
    rw [this, h2, List.zip, List.map_zipWith]
  refine ⟨hs, ?_, ?_, ?_⟩
  · rw [hs]
    simp [List.length_zipWith, hlen]
  · intro k hk
    have hk2 : k < es.UserNames.length := lt_of_lt_of_le hk hlen
    refine ⟨es.UserNames[k], es.Emails[k], List.getElem?_eq_getElem hk2,
      List.getElem?_eq_getElem hk, ?_⟩
    rw [hs]
    simp [List.getElem?_zipWith, List.getElem?_eq_getElem hk2, List.getElem?_eq_getElem hk]
  · rw [mail_body_eq env d es hd]
    split_ifs <;> simp [h5]

/-- C22 at a job for `alice` and `bob` whose send to `alice` fails. -/
theorem mail_sends_every_recipient_witness :
    (mailEnv ["alice", "bob"] ["alice@example.org", "bob@example.org"]
        ["alice@example.org"]).unmarshalEmailSend sampleDelivery.Body =
      .ok (mailJob ["alice", "bob"] ["alice@example.org", "bob@example.org"]) ∧
    sendCalls (ProcessMailSends.body
      (mailEnv ["alice", "bob"] ["alice@example.org", "bob@example.org"] ["alice@example.org"])
      sampleDelivery) =
      [("s", "c", "", "alice", "alice@example.org"), ("s", "c", "", "bob", "bob@example.org")] :=
  have h := mail_sends_every_recipient
    (mailEnv ["alice", "bob"] ["alice@example.org", "bob@example.org"] ["alice@example.org"])
    sampleDelivery (mailJob ["alice", "bob"] ["alice@example.org", "bob@example.org"]) rfl
    (by decide)
  ⟨rfl, h.1⟩

/-! ### Notifications of the pin consumer -/

/-- C23 (amended): for a decoded pin job on a non-public network: when the
access control check denies access the body publishes a notification naming the
job's user and then acknowledges; when the check returns an error, or the lookup
of the network's API endpoint fails, it acknowledges without publishing a
notification. -/
theorem pin_gate_notifications (env : Env) (d : Delivery) (pin : IPFSPin)
    (hd : env.unmarshalPin d.Body = .ok pin) (hnet : pin.NetworkName ≠ "public") :
    (env.CheckIfUserHasAccessToNetwork pin.UserName pin.NetworkName = .ok false →
      (∃ es : EmailSend, es.UserNames = [pin.UserName] ∧
        ProccessIPFSPins.body env d =
          [Event.CheckIfUserHasAccessToNetwork pin.UserName pin.NetworkName,
           Event.PublishEmail es, Event.Ack false])) ∧
    ((∃ e, env.CheckIfUserHasAccessToNetwork pin.UserName pin.NetworkName = .error e) →
      ProccessIPFSPins.body env d =
        [Event.CheckIfUserHasAccessToNetwork pin.UserName pin.NetworkName, Event.Ack false] ∧
      notifications (ProccessIPFSPins.body env d) = []) ∧
    (env.CheckIfUserHasAccessToNetwork pin.UserName pin.NetworkName = .ok true →
      (∃ e, env.GetAPIURLByName pin.NetworkName = .error e) →
      ProccessIPFSPins.body env d =
        [Event.CheckIfUserHasAccessToNetwork pin.UserName pin.NetworkName,
         Event.GetAPIURLByName pin.NetworkName, Event.Ack false] ∧
      notifications (ProccessIPFSPins.body env d) = []) := by
  refine ⟨?_, ?_, ?_⟩
  · intro hc
    exact ⟨{ Subject := env.consts.IpfsPrivateNetworkUnauthorizedSubject
             Content := "Unauthorized access to IPFS private network " ++ pin.NetworkName
             ContentType := ""
             UserNames := [pin.UserName]
             Emails := [] }, rfl, by simp [ProccessIPFSPins.body, hd, hnet, hc]⟩
  · rintro ⟨e, hc⟩
    simp [ProccessIPFSPins.body, hd, hnet, hc, notifications]
  · rintro hc ⟨e, hu⟩
    simp [ProccessIPFSPins.body, hd, hnet, hc, hu, notifications]

/-- C23 (amended) at the sample pin job sent to the private network `net1` with
access denied. -/
theorem pin_gate_notifications_witness :
    deniedEnv.unmarshalPin sampleDelivery.Body = .ok privatePin ∧
    privatePin.NetworkName ≠ "public" ∧
    (notifications (ProccessIPFSPins.body deniedEnv sampleDelivery)).map
      (fun es => es.UserNames) = [["alice"]] :=
  have h := pin_gate_notifications deniedEnv sampleDelivery privatePin rfl (by decide)
  ⟨rfl, by decide, (h.1 rfl).elim (fun es hes => by rw [hes.2]; simp [notifications, hes.1]; rfl)⟩

/-- C23 as stated fails when the access control check returns an error: the
sample pin job is sent to the private network `net1`, the check fails, and the
body acknowledges without publishing a notification. -/
theorem pin_access_error_not_notified :
    accessErrorEnv.unmarshalPin sampleDelivery.Body = .ok privatePin ∧
    privatePin.NetworkName ≠ "public" ∧
    ProccessIPFSPins.body accessErrorEnv sampleDelivery =
      [Event.CheckIfUserHasAccessToNetwork "alice" "net1", Event.Ack false] ∧
    notifications (ProccessIPFSPins.body accessErrorEnv sampleDelivery) = [] :=
  ⟨rfl, by decide, by decide, by decide⟩

/-! ### The api command -/

/-- C24: the `api` command starts at most one listener; when `api.Initialize`
succeeds it starts exactly one, on the address made of the `listenAddress` flag,
a colon and the port, the port being the value of `API_PORT` or `6767` when that
is empty; the listener is started with TLS, on the given certificate and key
paths, exactly when both `certFilePath` and `keyFilePath` are non-empty, and
without TLS otherwise. -/
theorem api_command_serves (getenv : String → String) (apiInitialize : Bool → Option GoError)
    (args : String → String) :
    (apiInitialize (decide (getenv "DEBUG" = "true")) = none →
      serves (commands.api.Action getenv apiInitialize args) =
        [(args "listenAddress" ++ ":" ++
            (if getenv "API_PORT" = "" then "6767" else getenv "API_PORT"),
          if args "certFilePath" ≠ "" ∧ args "keyFilePath" ≠ "" then
            some (args "certFilePath", args "keyFilePath")
          else none)]) ∧
    (∀ e, apiInitialize (decide (getenv "DEBUG" = "true")) = some e →
      serves (commands.api.Action getenv apiInitialize args) = []) := by
  refine ⟨?_, ?_⟩
  · intro hi
    simp only [commands.api.Action, hi]
    by_cases hc : args "certFilePath" = ""
    · simp [hc, serves, API.ListenAndServe]
    · by_cases hk : args "keyFilePath" = ""
      · simp [hk, serves, API.ListenAndServe]
      · simp [hc, hk, serves, API.ListenAndServe]
  · intro e hi
    simp [commands.api.Action, hi, serves]

/-- C24 at the three cases of `TestAPI`: no port and no TLS, a port and no TLS,
a port and TLS. -/
theorem api_command_serves_witness :
    serves (commands.api.Action (testGetenv "") (fun _ => none)
      (testFlags "127.0.0.1" "" "")) = [("127.0.0.1:6767", none)] ∧
    serves (commands.api.Action (testGetenv "6768") (fun _ => none)
      (testFlags "127.0.0.1" "" "")) = [("127.0.0.1:6768", none)] ∧
    serves (commands.api.Action (testGetenv "6769") (fun _ => none)
      (testFlags "127.0.0.1" "../../testenv/certs/api.cert" "../../testenv/certs/api.key")) =
      [("127.0.0.1:6769",
        some ("../../testenv/certs/api.cert", "../../testenv/certs/api.key"))] :=
  have h1 := (api_command_serves (testGetenv "") (fun _ => none)
    (testFlags "127.0.0.1" "" "")).1 rfl
  have h2 := (api_command_serves (testGetenv "6768") (fun _ => none)
    (testFlags "127.0.0.1" "" "")).1 rfl
  have h3 := (api_command_serves (testGetenv "6769") (fun _ => none)
    (testFlags "127.0.0.1" "../../testenv/certs/api.cert" "../../testenv/certs/api.key")).1 rfl
  ⟨h1.trans (by decide), h2.trans (by decide), h3.trans (by decide)⟩

/-! ### Acknowledgements of the mail consumer -/

/-- C25: for a decoded mail job whose `usernames` is at least as long as its
`emails`, the number of acknowledgements of the delivery is the number of failed
sends, plus one when `emails` is not empty and the send to the last recipient
succeeded; no `Nack` is made.  So a job without addresses is never acknowledged,
and a job with a failed send whose last send succeeds is acknowledged at least
twice. -/
theorem mail_ack_count (env : Env) (d : Delivery) (es : EmailSend)
    (hd : env.unmarshalEmailSend d.Body = .ok es)
    (hlen : es.Emails.length ≤ es.UserNames.length) :
    acks (ProcessMailSends.body env d) =
      ((ProcessMailSends.recipients es).filter (ProcessMailSends.sendFails env es)).length +
        (match (ProcessMailSends.recipients es).getLast? with
          | none => 0
          | some r => if ProcessMailSends.sendFails env es r = true then 0 else 1) ∧
    nacks (ProcessMailSends.body env d) = 0 ∧
    (es.Emails = [] → acks (ProcessMailSends.body env d) = 0) ∧
    ((∃ r ∈ ProcessMailSends.recipients es, ProcessMailSends.sendFails env es r = true) →
      (∃ r, (ProcessMailSends.recipients es).getLast? = some r ∧
        ProcessMailSends.sendFails env es r = false) →
      2 ≤ acks (ProcessMailSends.body env d)) := by
  obtain ⟨h1, -, h3, h4, -⟩ := mail_loop_spec env es es.Emails es.UserNames false hlen
  have hacks : acks (ProcessMailSends.body env d) =
      ((ProcessMailSends.recipients es).filter (ProcessMailSends.sendFails env es)).length +
        (match (ProcessMailSends.recipients es).getLast? with
          | none => 0
          | some r => if ProcessMailSends.sendFails env es r = true then 0 else 1) := by
    rw [mail_body_eq env d es hd]
    simp only [ProcessMailSends.finalAckReached, h1, ProcessMailSends.recipients]
    simp only [acks, List.countP_append] at h3 ⊢
    rw [h3]
    cases (es.UserNames.zip es.Emails).getLast? with
    | none => simp
    | some r => cases hf : ProcessMailSends.sendFails env es r <;> simp [hf]
  refine ⟨hacks, ?_, ?_, ?_⟩
  · rw [mail_body_eq env d es hd]
    simp only [nacks, List.countP_append] at h4 ⊢
    rw [h4]
    split_ifs <;> simp
  · intro he
    rw [hacks]
    simp [ProcessMailSends.recipients, he]
  · rintro ⟨r, hr, hf⟩ ⟨l, hl, hlf⟩
    rw [hacks, hl]
    have hpos : 0 < ((ProcessMailSends.recipients es).filter
        (ProcessMailSends.sendFails env es)).length :=
      List.length_pos.mpr (List.ne_nil_of_mem (List.mem_filter.mpr ⟨hr, hf⟩))
    simp only [hlf]
    simp
    omega

/-- C25 at a job for `alice` and `bob` whose send to `alice` fails and whose
send to `bob` succeeds: the delivery is acknowledged twice; and at a job without
addresses, which is not acknowledged. -/
theorem mail_ack_count_witness :
    (mailEnv ["alice", "bob"] ["alice@example.org", "bob@example.org"]
        ["alice@example.org"]).unmarshalEmailSend sampleDelivery.Body =
      .ok (mailJob ["alice", "bob"] ["alice@example.org", "bob@example.org"]) ∧
    acks (ProcessMailSends.body
      (mailEnv ["alice", "bob"] ["alice@example.org", "bob@example.org"] ["alice@example.org"])
      sampleDelivery) = 2 ∧
    acks (ProcessMailSends.body (mailEnv ["alice"] [] []) sampleDelivery) = 0 :=
  have h := mail_ack_count
    (mailEnv ["alice", "bob"] ["alice@example.org", "bob@example.org"] ["alice@example.org"])
    sampleDelivery (mailJob ["alice", "bob"] ["alice@example.org", "bob@example.org"]) rfl
    (by decide)
  have h0 := mail_ack_count (mailEnv ["alice"] [] []) sampleDelivery (mailJob ["alice"] [])
    rfl (by decide)
  ⟨rfl, h.1.trans (by decide), h0.2.2.1 rfl⟩

/-! ### The forwarded cluster pin job -/

/-- Refunds of a zero amount leave the balances as they were. -/
theorem creditsAfter_of_zero_refunds (bal : String → Credits) (t : List Event)
    (h : ∀ r ∈ refundCalls t, r.2.2 = 0) : creditsAfter bal t = bal := by
  induction t generalizing bal with
  | nil => rfl
  | cons e t ih =>
    have hsub : ∀ r ∈ refundCalls t, r.2.2 = 0 := by
      intro r hr
      apply h r
      unfold refundCalls at hr ⊢
      rw [show e :: t = [e] ++ t from rfl, List.filterMap_append]
      exact List.mem_append_right _ hr
    have hstep : creditsAfter bal (e :: t) = creditsAfter bal t := by
      cases e with
      | refundCredits user callType cost =>
        have hc : cost = 0 := by
          have := h (user, callType, cost) (by simp [refundCalls, List.filterMap_cons])
          simpa using this
        subst hc
        simp only [creditsAfter, List.foldl_cons]
        congr 1
        funext u
        split_ifs <;> simp
      | _ => rfl
    rw [hstep]
    exact ih bal hsub

/-- C26: the cluster pin job published by the pin body carries the hash, network,
hold time and user of the pin job and a credit cost of zero, whatever the credit
cost of the pin job; when the cluster pin body handles that job, every refund it
issues is for the amount zero, and the balances stay as they were. -/
theorem cluster_job_credit_cost_zero (env : Env) (d : Delivery) (pin : IPFSPin)
    (hd : env.unmarshalPin d.Body = .ok pin) :
    (∀ msg ∈ clusterPinJobs (ProccessIPFSPins.body env d),
      msg = { CID := pin.CID, NetworkName := pin.NetworkName, UserName := pin.UserName,
              HoldTimeInMonths := pin.HoldTimeInMonths, CreditCost := 0 }) ∧
    (∀ (env2 : Env) (d2 : Delivery) (msg : IPFSClusterPin),
      msg ∈ clusterPinJobs (ProccessIPFSPins.body env d) →
      env2.unmarshalClusterPin d2.Body = .ok msg →
      (∀ r ∈ refundCalls (ProcessIPFSClusterPins.body env2 d2), r = (pin.UserName, "pin", 0)) ∧
      ∀ bal : String → Credits,
        creditsAfter bal (ProcessIPFSClusterPins.body env2 d2) = bal) := by
  have h1 : ∀ msg ∈ clusterPinJobs (ProccessIPFSPins.body env d),
      msg = { CID := pin.CID, NetworkName := pin.NetworkName, UserName := pin.UserName,
              HoldTimeInMonths := pin.HoldTimeInMonths, CreditCost := 0 } := by
    simp only [ProccessIPFSPins.body, hd, ProccessIPFSPins.store, ProccessIPFSPins.ledger]
    repeat' split
    all_goals simp_all [clusterPinJobs]
  refine ⟨h1, ?_⟩
  intro env2 d2 msg hmsg hd2
  have hm := h1 msg hmsg
  have hr : ∀ r ∈ refundCalls (ProcessIPFSClusterPins.body env2 d2),
      r = (pin.UserName, "pin", 0) := by
    simp only [ProcessIPFSClusterPins.body, hd2, ProcessIPFSClusterPins.ledger]
    subst hm
    repeat' split
    all_goals simp_all [refundCalls]
  refine ⟨hr, fun bal => creditsAfter_of_zero_refunds bal _ ?_⟩
  intro r hrm
  rw [hr r hrm]

/-- C26 at the sample pin job sent to `net1` with credit cost 10: the cluster
pin consumer rejects the private network and refunds zero. -/
theorem cluster_job_credit_cost_zero_witness :
    { sampleEnv with unmarshalPin := fun _ => .ok privatePin }.unmarshalPin sampleDelivery.Body
      = .ok privatePin ∧
    privatePin.CreditCost = 10 ∧
    clusterPinJobs (ProccessIPFSPins.body
      { sampleEnv with unmarshalPin := fun _ => .ok privatePin } sampleDelivery) =
      [forwardedClusterPin] ∧
    refundCalls (ProcessIPFSClusterPins.body
      { sampleEnv with unmarshalClusterPin := fun _ => .ok forwardedClusterPin }
      sampleDelivery) = [("alice", "pin", 0)] ∧
    (∀ r ∈ refundCalls (ProcessIPFSClusterPins.body
      { sampleEnv with unmarshalClusterPin := fun _ => .ok forwardedClusterPin }
      sampleDelivery), r = ("alice", "pin", 0)) :=
  have hj : clusterPinJobs (ProccessIPFSPins.body
      { sampleEnv with unmarshalPin := fun _ => .ok privatePin } sampleDelivery) =
      [forwardedClusterPin] := by decide
  have h := cluster_job_credit_cost_zero
    { sampleEnv with unmarshalPin := fun _ => .ok privatePin } sampleDelivery privatePin rfl
  have h2 := (h.2 { sampleEnv with unmarshalClusterPin := fun _ => .ok forwardedClusterPin }
    sampleDelivery forwardedClusterPin (by rw [hj]; simp) rfl).1
  ⟨rfl, rfl, hj, by decide, h2⟩

/-! ### Early exits -/

/-- C27: when the construction of the local publisher fails, the IPNS body is
the acknowledgement alone, whatever the delivery carries and however it would
decode: no refund, no credential service call, no publish, no lookup or write of
an IPNS record. -/
theorem ipns_publisher_failure (env : Env) (d : Delivery) (e : GoError)
    (hpub : env.NewPublisher = some e) :
    ProcessIPNSEntryCreationRequests.body env d = [Event.NewPublisher, Event.Ack false] ∧
    (∀ u : Option String → Except GoError IPNSEntry,
      ProcessIPNSEntryCreationRequests.body { env with unmarshalIPNSEntry := u } d =
        [Event.NewPublisher, Event.Ack false]) ∧
    refundCalls (ProcessIPNSEntryCreationRequests.body env d) = [] ∧
    credentialCalls (ProcessIPNSEntryCreationRequests.body env d) = [] ∧
    namePublishes (ProcessIPNSEntryCreationRequests.body env d) = [] ∧
    ipnsLookups (ProcessIPNSEntryCreationRequests.body env d) = [] ∧
    ipnsUpdates (ProcessIPNSEntryCreationRequests.body env d) = [] ∧
    ipnsInserts (ProcessIPNSEntryCreationRequests.body env d) = [] ∧
    acks (ProcessIPNSEntryCreationRequests.body env d) = 1 ∧
    nacks (ProcessIPNSEntryCreationRequests.body env d) = 0 := by
  have ht : ProcessIPNSEntryCreationRequests.body env d =
      [Event.NewPublisher, Event.Ack false] := by
    simp [ProcessIPNSEntryCreationRequests.body, hpub]
  refine ⟨ht, ?_, ?_⟩
  · intro u
    simp [ProcessIPNSEntryCreationRequests.body, hpub]
  · rw [ht]
    simp [refundCalls, credentialCalls, namePublishes, ipnsLookups, ipnsUpdates, ipnsInserts,
      acks, nacks]

/-- C27 at a delivery carrying the sample IPNS job for the private network
`net1`, with the construction of the publisher failing. -/
theorem ipns_publisher_failure_witness :
    publisherFailsEnv.NewPublisher = some (GoError.other "address already in use") ∧
    publisherFailsEnv.unmarshalIPNSEntry sampleDelivery.Body = .ok privateIPNSEntry ∧
    refundCalls (ProcessIPNSEntryCreationRequests.body publisherFailsEnv sampleDelivery) = [] ∧
    acks (ProcessIPNSEntryCreationRequests.body publisherFailsEnv sampleDelivery) = 1 :=
  have h := ipns_publisher_failure publisherFailsEnv sampleDelivery
    (GoError.other "address already in use") rfl
  ⟨rfl, rfl, h.2.2.1, h.2.2.2.2.2.2.2.2.1⟩

/-- C28: in the database pin and file consumers a delivery with a nil body gets
no call at all (neither `Ack` nor `Nack`) and leaves the table as it was; a
delivery with a body that is not nil is acknowledged exactly once and never
rejected. -/
theorem database_consumers_nil_body (env : ConsumeEnv) (db : DB) (d : Delivery) :
    (d.Body = none →
      ConsumeMessage.DatabasePinAddQueue env db d = ([], db) ∧
      ConsumeMessage.DatabaseFileAddQueue env db d = ([], db)) ∧
    (d.Body ≠ none →
      acks (ConsumeMessage.DatabasePinAddQueue env db d).1 = 1 ∧
      nacks (ConsumeMessage.DatabasePinAddQueue env db d).1 = 0 ∧
      acks (ConsumeMessage.DatabaseFileAddQueue env db d).1 = 1 ∧
      nacks (ConsumeMessage.DatabaseFileAddQueue env db d).1 = 0) := by
  refine ⟨?_, ?_⟩
  · intro hb
    simp [ConsumeMessage.DatabasePinAddQueue, ConsumeMessage.DatabaseFileAddQueue, hb]
  · intro hb
    obtain ⟨b, hb2⟩ := Option.ne_none_iff_exists'.mp hb
    simp only [ConsumeMessage.DatabasePinAddQueue, ConsumeMessage.DatabaseFileAddQueue, hb2,
      ConsumeMessage.clusterPin]
    refine ⟨?_, ?_, ?_, ?_⟩
    all_goals
      repeat' split
      all_goals simp [acks, nacks]

/-- C28 at a delivery with a nil body and at the sample delivery `A3`, on the
table holding one record. -/
theorem database_consumers_nil_body_witness :
    ConsumeMessage.DatabasePinAddQueue sampleConsumeEnv sampleDB3 { Body := none } =
      ([], sampleDB3) ∧
    acks (ConsumeMessage.DatabaseFileAddQueue sampleConsumeEnv sampleDB3 (deliveryOf "A3")).1 =
      1 :=
  have h := database_consumers_nil_body sampleConsumeEnv sampleDB3 { Body := none }
  have h2 := database_consumers_nil_body sampleConsumeEnv sampleDB3 (deliveryOf "A3")
  ⟨(h.1 rfl).1, (h2.2 (by decide)).2.2.1⟩

/-! ### Key names -/

/-- A list without a dash, followed by a dash and a rest, determines the rest. -/
theorem dash_split_unique (l1 : List Char) :
    ∀ (l2 r1 r2 : List Char), '-' ∉ l1 → '-' ∉ l2 →
      l1 ++ '-' :: r1 = l2 ++ '-' :: r2 → l1 = l2 ∧ r1 = r2 := by
  induction l1 with
  | nil =>
    intro l2 r1 r2 _ h2 h
    cases l2 with
    | nil => simpa using h
    | cons c l2 =>
      simp only [List.nil_append, List.cons_append, List.cons.injEq] at h
      exact absurd (by rw [h.1]; simp) h2
  | cons c l1 ih =>
    intro l2 r1 r2 h1 h2 h
    cases l2 with
    | nil =>
      simp only [List.nil_append, List.cons_append, List.cons.injEq] at h
      exact absurd (by rw [← h.1]; simp) h1
    | cons c2 l2 =>
      simp only [List.cons_append, List.cons.injEq] at h
      have h1' : '-' ∉ l1 := fun hm => h1 (List.mem_cons_of_mem _ hm)
      have h2' : '-' ∉ l2 := fun hm => h2 (List.mem_cons_of_mem _ hm)
      obtain ⟨e1, e2⟩ := ih l2 r1 r2 h1' h2' h.2
      exact ⟨by rw [h.1, e1], e2⟩

/-- C29: the name under which a key is created is the user name, a dash and the
label.  It does not determine the user and the label: the user `a-b` with the
label `c` and the user `a` with the label `b-c` get the same key name.  Among
users whose name contains no dash it does: equal key names come from equal user
names and equal labels. -/
theorem key_name_injectivity :
    (∀ (env : Env) (key : IPFSKeyCreation) (keyType : KeyType) (bits : Int),
      (ProcessIPFSKeyCreation.create env key keyType bits).head? =
        some (Event.CreateAndSaveKey (ProcessIPFSKeyCreation.keyName key) keyType bits)) ∧
    ((keyJob "a-b" "c").UserName ≠ (keyJob "a" "b-c").UserName ∧
      ProcessIPFSKeyCreation.keyName (keyJob "a-b" "c") =
        ProcessIPFSKeyCreation.keyName (keyJob "a" "b-c")) ∧
    (∀ k1 k2 : IPFSKeyCreation, '-' ∉ k1.UserName.toList → '-' ∉ k2.UserName.toList →
      ProcessIPFSKeyCreation.keyName k1 = ProcessIPFSKeyCreation.keyName k2 →
      k1.UserName = k2.UserName ∧ k1.Name = k2.Name) := by
  refine ⟨fun _ _ _ _ => rfl, ⟨by decide, by decide⟩, ?_⟩
  intro k1 k2 h1 h2 h
  have hl : k1.UserName.toList ++ '-' :: k1.Name.toList =
      k2.UserName.toList ++ '-' :: k2.Name.toList := by
    have := congrArg String.toList h
    simpa [ProcessIPFSKeyCreation.keyName, String.toList, String.data_append] using this
  obtain ⟨e1, e2⟩ := dash_split_unique _ _ _ _ h1 h2 hl
  exact ⟨String.ext e1, String.ext e2⟩

/-- C29 at the users `alice` and `bob`, whose names contain no dash. -/
theorem key_name_injectivity_witness :
    '-' ∉ (keyJob "alice" "k-1").UserName.toList ∧
    (ProcessIPFSKeyCreation.keyName (keyJob "alice" "k-1") =
      ProcessIPFSKeyCreation.keyName (keyJob "alice" "k-1") →
      (keyJob "alice" "k-1").Name = (keyJob "alice" "k-1").Name) ∧
    ProcessIPFSKeyCreation.keyName (keyJob "alice" "k-1") = "alice-k-1" :=
  ⟨by decide,
   fun h => (key_name_injectivity.2.2 (keyJob "alice" "k-1") (keyJob "alice" "k-1")
    (by decide) (by decide) h).2,
   by decide⟩

/-! ### The file size check -/

/-- Within the 64-bit range wrap-around changes nothing. -/
theorem wrapInt64_of_range (x : Int) (h1 : -(2 ^ 63) ≤ x) (h2 : x < 2 ^ 63) :
    wrapInt64 x = x := by
  unfold wrapInt64
  omega

/-- C30: `FileSizeCheck` returns an error when the configured limit does not
denote a signed 64-bit integer in base 10; when it denotes `L`, the check returns
the file-too-big error exactly when `size` exceeds `L * 2^30` taken with 64-bit
wrap-around, and nil otherwise; for `0 ≤ L < 2^33` it returns nil exactly for
the sizes up to `L * 2^30`. -/
theorem file_size_check (tooBig limit : String) (size : Int) :
    (denotedInt64 limit = none → ∃ e, API.FileSizeCheck tooBig limit size = some e) ∧
    (∀ L : Int, denotedInt64 limit = some L →
      (API.FileSizeCheck tooBig limit size = some (GoError.other tooBig) ↔
        size > wrapInt64 (2 ^ 30 * L)) ∧
      (API.FileSizeCheck tooBig limit size = none ↔ ¬ size > wrapInt64 (2 ^ 30 * L))) ∧
    (∀ L : Int, denotedInt64 limit = some L → 0 ≤ L → L < 2 ^ 33 →
      (API.FileSizeCheck tooBig limit size = none ↔ size ≤ L * 2 ^ 30)) := by
  have hp := parseInt_eq_denoted limit
  have hmain : ∀ L : Int, denotedInt64 limit = some L →
      (API.FileSizeCheck tooBig limit size = some (GoError.other tooBig) ↔
        size > wrapInt64 (2 ^ 30 * L)) ∧
      (API.FileSizeCheck tooBig limit size = none ↔ ¬ size > wrapInt64 (2 ^ 30 * L)) := by
    intro L hL
    rw [hL] at hp
    unfold API.FileSizeCheck
    cases hpi : ParseInt limit with
    | error e => rw [hpi] at hp; simp at hp
    | ok n =>
      rw [hpi] at hp
      have hn : n = L := by simpa using hp
      subst hn
      simp only [GBBytes]
      by_cases hs : size > wrapInt64 (2 ^ 30 * n) <;> simp [hs]
  refine ⟨?_, hmain, ?_⟩
  · intro hnone
    rw [hnone] at hp
    unfold API.FileSizeCheck
    cases hpi : ParseInt limit with
    | error e => exact ⟨e, rfl⟩
    | ok n => rw [hpi] at hp; simp at hp
  · intro L hL h0 h33
    rw [(hmain L hL).2, wrapInt64_of_range _ (by omega) (by omega)]
    constructor <;> intro h <;> omega

/-- C30 at the limit `1` and at a limit that does not parse. -/
theorem file_size_check_witness :
    denotedInt64 "1" = some 1 ∧
    API.FileSizeCheck "file is too big" "1" 1073741824 = none ∧
    API.FileSizeCheck "file is too big" "1" 1073741825 =
      some (GoError.other "file is too big") ∧
    denotedInt64 "one" = none ∧
    (∃ e, API.FileSizeCheck "file is too big" "one" 5 = some e) :=
  have h := file_size_check "file is too big" "1" 1073741824
  have h2 := file_size_check "file is too big" "1" 1073741825
  have h3 := file_size_check "file is too big" "one" 5
  ⟨by decide, (h.2.2 1 (by decide) (by decide) (by decide)).mpr (by decide),
   ((h2.2.1 1 (by decide)).1).mpr (by decide), by decide, h3.1 (by decide)⟩

end Temporal
